import Mathlib

/-!
# HTTP connection of the control agent transport (src/lib/http/connection.cc)

A shallow embedding of `isc::http::HttpConnection`.  The connection's members
become the fields of a record, each member function becomes a function on
that record, and every call the connection makes on one of its collaborators
(socket, pool, acceptor, timer, parser, request, response creator) is
appended to a trace kept in the record.  The collaborators themselves are
not part of connection.cc; they are parameters, collected in `Env`.

C++ exceptions are explicit: a member function returns the connection as it
is when the function is left, and the exception that leaves it, if any.
-/

namespace isc.http

/-- Contents of a std::string or of a byte buffer. -/
abbrev Bytes := List Char

/-- Value of a boost::system::error_code; zero is success, so the C++
conversion to bool is a test against 0. -/
abbrev ErrorCode := Int

/-- Value of boost::asio::error::operation_aborted (ECANCELED on Linux). -/
def operation_aborted : ErrorCode := 125

/-- A C++ exception, by what the catch clauses of connection.cc can tell:
whether it derives from std::exception or not. -/
inductive Exn where
  | stdException
  | other
  deriving DecidableEq, Repr

/-- Status codes of HttpStatusCode used to ask for stock responses. -/
inductive HttpStatusCode where
  | OK
  | BAD_REQUEST
  | REQUEST_TIMEOUT
  | INTERNAL_SERVER_ERROR
  deriving DecidableEq, Repr

/-- The mode argument of IntervalTimer::setup. -/
inductive TimerMode where
  | REPEATING
  | ONE_SHOT
  deriving DecidableEq, Repr

/-- The member function bound into a callback object handed to a collaborator. -/
inductive BoundCallback where
  | acceptorCallback
  | socketReadCallback
  | socketWriteCallback
  | requestTimeoutCallback
  deriving DecidableEq, Repr

/-- A response object, seen through the only member the connection uses:
toString(), which returns the serialization or raises. -/
structure HttpResponse where
  toString : Except Exn Bytes

/-- One call made by the connection on a collaborator.  The type `P` is the
state of the request object together with the parser bound to it. -/
inductive Event (P : Type) where
  | socketClose
  | poolStop
  | acceptorAsyncAccept (cb : BoundCallback)
  | socketAsyncReceive (size : Nat) (cb : BoundCallback)
  | socketAsyncSend (data : Bytes) (cb : BoundCallback)
  | acceptorUserCallback (ec : ErrorCode)
  | timerSetup (cb : BoundCallback) (interval : Int) (mode : TimerMode)
  | timerCancel
  | parserPostBuffer (data : Bytes)
  | parserPoll
  | requestFinalize
  | createHttpResponse (request : P)
  | createStockHttpResponse (request : P) (status : HttpStatusCode)
  deriving DecidableEq

/-- The collaborators of a connection.  Parser and request are one value of
type `P` (the parser holds a reference to the request and fills it in).
`raises` tells, for a call that returns nothing, whether it raises, given
all calls made before it; `timerCancel` is listed among the events although
connection.cc never makes that call. -/
structure Env (P : Type) where
  createNewHttpRequest : P
  initModel : P → P
  postBuffer : P → Bytes → P
  poll : P → P
  needData : P → Bool
  httpParseOk : P → Bool
  finalize : P → P × Option Exn
  createHttpResponse : P → Except Exn HttpResponse
  createStockHttpResponse : P → HttpStatusCode → Except Exn HttpResponse
  acceptorIsOpen : List (Event P) → Bool
  raises : List (Event P) → Event P → Option Exn

/-- The members of HttpConnection.  `request_` stands for request_ and
parser_ together.  `acceptPending`, `pendingReads`, `pendingWrites` and
`timerArmed` are the state of acceptor_, socket_ and request_timer_ that the
connection's calls change: operations started and not yet completed. -/
structure HttpConnection (P : Type) where
  request_timeout_ : Int
  request_ : P
  buf_ : Bytes
  output_buf_ : Bytes
  acceptPending : Bool
  pendingReads : Nat
  pendingWrites : Nat
  timerArmed : Bool
  trace : List (Event P)

/-- What a member function leaves behind: the connection and the exception
that propagates out of the function, if any. -/
abbrev Outcome (P : Type) := HttpConnection P × Option Exn

variable {P : Type}

/-- A call on a collaborator that returns nothing: it is recorded, and it
raises what the environment says. -/
def extCall (env : Env P) (e : Event P) (c : HttpConnection P) : Outcome P :=
  ({ c with trace := c.trace ++ [e] }, env.raises c.trace e)

/-- Sequencing of statements: the rest runs when nothing was raised. -/
def andThen (r : Outcome P) (k : HttpConnection P → Outcome P) : Outcome P :=
  match r.2 with
  | none => k r.1
  | some e => (r.1, some e)

/-- The clause `catch (...) {}` with an empty body. -/
def catchAll (r : Outcome P) : Outcome P :=
  (r.1, none)

/-- The clause `catch (const std::exception& ex) { handler }`. -/
def catchStd (r : Outcome P) (handler : HttpConnection P → Outcome P) : Outcome P :=
  match r.2 with
  | some Exn.stdException => handler r.1
  | _ => r

/-- Number of characters the unused local `std::string s(&buf_[0], buf_[0] + length)`
of socketReadCallback asks for: the first character as a (signed) char plus
the length, in size_t arithmetic. -/
def localStringCount (buf : Bytes) (length : Nat) : Nat :=
  let c0 : Int := match buf.head? with
    | some ch => if ch.toNat < 128 then (ch.toNat : Int) else (ch.toNat : Int) - 256
    | none => 0
  ((c0 + (length : Int)) % (2 ^ 64 : Int)).toNat

/-- The range the unused local string of socketReadCallback is built from
lies within buf_: the construction copies characters of buf_ and has no
other effect. -/
def localStringInBuf (buf : Bytes) (length : Nat) : Bool :=
  localStringCount buf length ≤ buf.length

/-- An upper bound of std::string::max_size() for a 64 bit size_t. -/
def string_max_size : Nat := 2 ^ 63 - 1

/-- The construction of the local string of socketReadCallback raises
std::length_error: the count is beyond max_size(), which is what the sum of
a negative first character and a smaller length wraps to. -/
def localStringRaises (buf : Bytes) (length : Nat) : Bool :=
  !localStringInBuf buf length && decide (string_max_size < localStringCount buf length)

/-- The constructor: the request comes from the response creator, the parser
is bound to it and its model initialised; buf_ is zero-filled. -/
def HttpConnection.new (env : Env P) (request_timeout : Int) (bufSize : Nat) :
    HttpConnection P :=
  { request_timeout_ := request_timeout
    request_ := env.initModel env.createNewHttpRequest
    buf_ := List.replicate bufSize (Char.ofNat 0)
    output_buf_ := []
    acceptPending := false
    pendingReads := 0
    pendingWrites := 0
    timerArmed := false
    trace := [] }

/-- HttpConnection::close. -/
def close (env : Env P) (c : HttpConnection P) : Outcome P :=
  extCall env Event.socketClose c

/-- HttpConnection::stopThisConnection. -/
def stopThisConnection (env : Env P) (c : HttpConnection P) : Outcome P :=
  catchAll (extCall env Event.poolStop c)

/-- HttpConnection::asyncAccept; HttpConnectionError derives from
std::exception. -/
def asyncAccept (env : Env P) (c : HttpConnection P) : Outcome P :=
  catchStd
    (andThen (extCall env (Event.acceptorAsyncAccept BoundCallback.acceptorCallback) c)
      (fun c1 => ({ c1 with acceptPending := true }, none)))
    (fun c1 => (c1, some Exn.stdException))

/-- HttpConnection::doRead. -/
def doRead (env : Env P) (c : HttpConnection P) : Outcome P :=
  catchStd
    (andThen
      (extCall env (Event.socketAsyncReceive c.buf_.length BoundCallback.socketReadCallback) c)
      (fun c1 => ({ c1 with pendingReads := c1.pendingReads + 1 }, none)))
    (fun c1 => stopThisConnection env c1)

/-- HttpConnection::doWrite. -/
def doWrite (env : Env P) (c : HttpConnection P) : Outcome P :=
  catchStd
    (if !c.output_buf_.isEmpty then
      andThen
        (extCall env (Event.socketAsyncSend c.output_buf_ BoundCallback.socketWriteCallback) c)
        (fun c1 => ({ c1 with pendingWrites := c1.pendingWrites + 1 }, none))
    else (c, none))
    (fun c1 => stopThisConnection env c1)

/-- HttpConnection::asyncSendResponse. -/
def asyncSendResponse (env : Env P) (response : HttpResponse) (c : HttpConnection P) :
    Outcome P :=
  match response.toString with
  | Except.error e => (c, some e)
  | Except.ok s => doWrite env { c with output_buf_ := s }

/-- HttpConnection::acceptorCallback. -/
def acceptorCallback (env : Env P) (ec : ErrorCode) (c : HttpConnection P) : Outcome P :=
  if !env.acceptorIsOpen c.trace then (c, none)
  else
    andThen (if ec ≠ 0 then stopThisConnection env c else (c, none)) fun c1 =>
    andThen (extCall env (Event.acceptorUserCallback ec) c1) fun c2 =>
    if ec = 0 then
      andThen
        (extCall env
          (Event.timerSetup BoundCallback.requestTimeoutCallback c2.request_timeout_
            TimerMode.ONE_SHOT) c2)
        fun c3 => doRead env { c3 with timerArmed := true }
    else (c2, none)

/-- The call response_creator_->createHttpResponse(request_). -/
def callCreateHttpResponse (env : Env P) (c : HttpConnection P) :
    HttpConnection P × Except Exn HttpResponse :=
  ({ c with trace := c.trace ++ [Event.createHttpResponse c.request_] },
    env.createHttpResponse c.request_)

/-- The call response_creator_->createStockHttpResponse(request_, status). -/
def callCreateStockHttpResponse (env : Env P) (status : HttpStatusCode)
    (c : HttpConnection P) : HttpConnection P × Except Exn HttpResponse :=
  ({ c with trace := c.trace ++ [Event.createStockHttpResponse c.request_ status] },
    env.createStockHttpResponse c.request_ status)

/-- HttpConnection::socketReadCallback.  The error code is not looked at.
Line 133 builds the local string `s`, which is never read: when its count is
beyond max_size() the constructor raises std::length_error, which leaves the
callback before the parser is fed; when its range lies within buf_ it has no
effect.  For a count in between the construction reads past buf_, for which
C++ defines nothing; the function goes on there as if it had no effect, and
the theorems on read completions assume `localStringInBuf`. -/
def socketReadCallback (env : Env P) (_ec : ErrorCode) (length : Nat)
    (c : HttpConnection P) : Outcome P :=
  if localStringRaises c.buf_ length then (c, some Exn.stdException)
  else
  let c1 : HttpConnection P :=
    { c with
      request_ := env.poll (env.postBuffer c.request_ (c.buf_.take length))
      trace := c.trace ++ [Event.parserPostBuffer (c.buf_.take length), Event.parserPoll] }
  if env.needData c1.request_ then doRead env c1
  else
    let c2 : HttpConnection P :=
      { c1 with
        request_ := (env.finalize c1.request_).1
        trace := c1.trace ++ [Event.requestFinalize] }
    let r := callCreateHttpResponse env c2
    match r.2 with
    | Except.error e => (r.1, some e)
    | Except.ok response => asyncSendResponse env response r.1

/-- HttpConnection::socketWriteCallback.  The error code is not looked at. -/
def socketWriteCallback (env : Env P) (_ec : ErrorCode) (length : Nat)
    (c : HttpConnection P) : Outcome P :=
  if length ≤ c.output_buf_.length then
    doWrite env { c with output_buf_ := c.output_buf_.drop length }
  else ({ c with output_buf_ := [] }, none)

/-- HttpConnection::requestTimeoutCallback. -/
def requestTimeoutCallback (env : Env P) (c : HttpConnection P) : Outcome P :=
  let r := callCreateStockHttpResponse env HttpStatusCode.REQUEST_TIMEOUT c
  match r.2 with
  | Except.error e => (r.1, some e)
  | Except.ok response => asyncSendResponse env response r.1

/-- HttpConnection::SocketCallback::operator(), around the wrapped handler. -/
def SocketCallback (callback_ : ErrorCode → Nat → HttpConnection P → Outcome P)
    (ec : ErrorCode) (length : Nat) (c : HttpConnection P) : Outcome P :=
  if ec = operation_aborted then (c, none)
  else callback_ ec length c

/-- A completion the event loop hands to the connection: of the accept, of a
receive (with the bytes the socket put into buf_), of a send (with the number
of bytes taken), or the expiry of the request timer. -/
inductive Completion where
  | accepted (ec : ErrorCode)
  | received (ec : ErrorCode) (data : Bytes)
  | sent (ec : ErrorCode) (length : Nat)
  | timerExpired
  deriving DecidableEq, Repr

/-- One step of the event loop: the completion of an operation that is
outstanding is removed from the outstanding ones and its callback runs
(socket completions go through SocketCallback).  A completion of an
operation that is not outstanding is not a step. -/
def deliver (env : Env P) (c : HttpConnection P) : Completion → Option (Outcome P)
  | Completion.accepted ec =>
    if c.acceptPending then
      some (acceptorCallback env ec { c with acceptPending := false })
    else none
  | Completion.received ec data =>
    if 0 < c.pendingReads ∧ data.length ≤ c.buf_.length then
      some (SocketCallback (socketReadCallback env) ec data.length
        { c with
          pendingReads := c.pendingReads - 1
          buf_ := data ++ c.buf_.drop data.length })
    else none
  | Completion.sent ec length =>
    if 0 < c.pendingWrites then
      some (SocketCallback (socketWriteCallback env) ec length
        { c with pendingWrites := c.pendingWrites - 1 })
    else none
  | Completion.timerExpired =>
    if c.timerArmed then
      some (requestTimeoutCallback env { c with timerArmed := false })
    else none

/-- A run of the event loop: the completions are delivered one after the
other; an exception that leaves a callback leaves the connection as it is. -/
def run (env : Env P) : List Completion → HttpConnection P → Option (HttpConnection P)
  | [], c => some c
  | x :: xs, c =>
    match deliver env c x with
    | none => none
    | some r => run env xs r.1

/-- Number of asynchronous reads and writes outstanding on the socket. -/
def outstanding (c : HttpConnection P) : Nat :=
  c.pendingReads + c.pendingWrites

/-- The connection as the pool starts it: constructed, accept requested. -/
def started (env : Env P) (request_timeout : Int) (bufSize : Nat) : HttpConnection P :=
  (asyncAccept env (HttpConnection.new env request_timeout bufSize)).1

/-- The call asks the response creator for a response. -/
def Event.isResponseCreation : Event P → Bool
  | Event.createHttpResponse _ => true
  | Event.createStockHttpResponse _ _ => true
  | _ => false

/-- The calls made between two states of the same connection. -/
def callsSince (before after : HttpConnection P) : List (Event P) :=
  after.trace.drop before.trace.length

/-- The request after the parser was fed the first `length` bytes of buf_ and
polled, as socketReadCallback does. -/
def fedRequest (env : Env P) (c : HttpConnection P) (length : Nat) : P :=
  env.poll (env.postBuffer c.request_ (c.buf_.take length))

/-- The number of a status code, as text. -/
def stockBytes : HttpStatusCode → Bytes
  | HttpStatusCode.OK => ['2', '0', '0']
  | HttpStatusCode.BAD_REQUEST => ['4', '0', '0']
  | HttpStatusCode.REQUEST_TIMEOUT => ['4', '0', '8']
  | HttpStatusCode.INTERNAL_SERVER_ERROR => ['5', '0', '0']

/-- A set of collaborators to run the connection with: the parser collects
the bytes and wants more until it has seen a full stop, a request is well
formed when it starts with G, the creator answers OK, and stock responses
carry the number of their status. -/
def sampleEnv : Env Bytes :=
  { createNewHttpRequest := []
    initModel := fun p => p
    postBuffer := fun p d => p ++ d
    poll := fun p => p
    needData := fun p => !p.contains '.'
    httpParseOk := fun p => p.head? == some 'G'
    finalize := fun p => (p, if p.head? == some 'G' then none else some Exn.stdException)
    createHttpResponse := fun _ => Except.ok { toString := Except.ok ['O', 'K'] }
    createStockHttpResponse := fun _ st => Except.ok { toString := Except.ok (stockBytes st) }
    acceptorIsOpen := fun _ => true
    raises := fun _ _ => none }

/-- A connection of `sampleEnv` with a buffer of 96 bytes into which `data`
was received. -/
def sampleConn (data : Bytes) : HttpConnection Bytes :=
  { (HttpConnection.new sampleEnv 2000 96) with
    buf_ := data ++ List.replicate (96 - data.length) (Char.ofNat 0) }

/-- A connection of `sampleEnv` that has the response OK in its write buffer
and the write of it outstanding. -/
def sampleWriting : HttpConnection Bytes :=
  { (HttpConnection.new sampleEnv 2000 96) with
    output_buf_ := ['O', 'K']
    pendingWrites := 1 }

/-- The connection of `sampleEnv` after the read of the request G. was
completed: the response OK is in the write buffer and on its way. -/
def sampleResponded : HttpConnection Bytes :=
  (socketReadCallback sampleEnv 0 2 (sampleConn ['G', '.'])).1

/-- The outstanding reads and writes together with what can still start one:
the armed timer (one write) and the pending accept (the first read and the
timer). -/
def budget (c : HttpConnection P) : Nat :=
  outstanding c + (if c.timerArmed then 1 else 0) + (if c.acceptPending then 2 else 0)

/-- The outstanding reads and writes together with the pending accept, which
starts the first read. -/
def budgetNoTimer (c : HttpConnection P) : Nat :=
  outstanding c + (if c.acceptPending then 1 else 0)

/-- The collaborators of `sampleEnv` with a response creator that fails:
createHttpResponse raises, and the stock response raises when serialized. -/
def brokenCreatorEnv : Env Bytes :=
  { sampleEnv with
    createHttpResponse := fun _ => Except.error Exn.stdException
    createStockHttpResponse := fun _ _ => Except.ok { toString := Except.error Exn.stdException } }

/-- The collaborators of `sampleEnv` with a socket of which asyncReceive and
asyncSend raise a std::exception, and a pool of which stop raises something
else. -/
def brokenSocketEnv : Env Bytes :=
  { sampleEnv with
    raises := fun _ e =>
      match e with
      | Event.socketAsyncReceive _ _ => some Exn.stdException
      | Event.socketAsyncSend _ _ => some Exn.stdException
      | Event.poolStop => some Exn.other
      | _ => none }

/-- A handler that counts its invocations in pendingReads and keeps the
arguments of the last one in request_timeout_ and pendingWrites. -/
def countingHandler (ec : ErrorCode) (length : Nat) (c : HttpConnection Bytes) :
    Outcome Bytes :=
  ({ c with
      request_timeout_ := ec
      pendingWrites := length
      pendingReads := c.pendingReads + 1 }, none)

/-- A connection of `sampleEnv` configured with the given request timeout. -/
def sampleConnWith (request_timeout : Int) : HttpConnection Bytes :=
  HttpConnection.new sampleEnv request_timeout 96

/-- A connection of `sampleEnv` that has taken the byte G of a request and
into whose buffer the bytes 0xC3, 0xA9 and a full stop were received. -/
def sampleMidRequest : HttpConnection Bytes :=
  { (sampleConn [Char.ofNat 0xC3, Char.ofNat 0xA9, '.']) with request_ := ['G'] }

/-- The collaborators of `sampleEnv` with a socket of which asyncReceive and
asyncSend raise an exception that does not derive from std::exception. -/
def foreignSocketEnv : Env Bytes :=
  { sampleEnv with
    raises := fun _ e =>
      match e with
      | Event.socketAsyncReceive _ _ => some Exn.other
      | Event.socketAsyncSend _ _ => some Exn.other
      | _ => none }

end isc.http

/-!
# Option configuration and server configuration of the DHCP server
(src/lib/dhcpsrv/cfg_option.h, src/lib/dhcpsrv/srv_config.cc)
-/

namespace isc.dhcp

/-- An option (the C++ class Option), as far as CfgOption::get looks at it:
getType(), a uint16_t, and the rest of its content. -/
structure DhcpOption where
  type : Nat
  data : List Nat
  deriving DecidableEq, Repr

/-- OptionPtr: a shared pointer, NULL being `none`. -/
abbrev OptionPtr := Option DhcpOption

/-- The struct OptionDescriptor. -/
structure OptionDescriptor where
  option : OptionPtr
  persistent : Bool
  deriving DecidableEq, Repr

/-- The constructor OptionDescriptor(bool persist): a NULL option. -/
def OptionDescriptor.ofPersist (persist : Bool) : OptionDescriptor :=
  { option := none, persistent := persist }

/-- OptionContainer, by its sequenced index #0: the descriptors in the order
they were added. -/
abbrev OptionContainer := List OptionDescriptor

/-- The key of index #1: Option::getType of OptionDescriptor::option. -/
def typeKey (d : OptionDescriptor) : Option Nat :=
  d.option.map DhcpOption.type

/-- The call idx.equal_range(option_code) on index #1, a hashed index: the
elements with that key, in the order the index holds them.  That order
belongs to the multi-index container; it is the parameter `index1`, which
lists the elements of the container. -/
def equal_range (index1 : OptionContainer → List OptionDescriptor)
    (options : OptionContainer) (option_code : Nat) : List OptionDescriptor :=
  (index1 options).filter (fun d => typeKey d == some option_code)

/-- CfgOption::get.  getAll(key) is declared in cfg_option.h and defined
elsewhere; it is the parameter `getAll`, returning a pointer to a container
(`none` for NULL). -/
def CfgOption.get {K : Type} (getAll : K → Option OptionContainer)
    (index1 : OptionContainer → List OptionDescriptor) (key : K) (option_code : Nat) :
    OptionDescriptor :=
  match getAll key with
  | none => OptionDescriptor.ofPersist false
  | some options =>
    if options.isEmpty then OptionDescriptor.ofPersist false
    else
      let range := equal_range index1 options option_code
      if range.length = 0 then OptionDescriptor.ofPersist false
      else
        match range with
        | first :: _ => first
        | [] => OptionDescriptor.ofPersist false

/-- The descriptors stored under a key: those of the container getAll
returns, none when it returns NULL. -/
def storedUnder {K : Type} (getAll : K → Option OptionContainer) (key : K) :
    OptionContainer :=
  (getAll key).getD []

/-- A configuration with options in the space dhcp4 and for vendor 4491. -/
def sampleGetAll : String ⊕ Nat → Option OptionContainer
  | Sum.inl space =>
    if space = "dhcp4" then
      some [{ option := some { type := 6, data := [8, 8, 8, 8] }, persistent := false },
        { option := some { type := 3, data := [10, 0, 0, 1] }, persistent := true },
        { option := some { type := 6, data := [1, 1, 1, 1] }, persistent := true }]
    else some []
  | Sum.inr vendor_id =>
    if vendor_id = 4491 then
      some [{ option := some { type := 2, data := [192, 0, 2, 1] }, persistent := false }]
    else none

/-- The types of the members of SrvConfig that equals and getConfigSummary
look at; their classes are defined elsewhere. -/
structure SrvConfigTypes where
  LoggingInfo : Type
  CfgIface : Type
  CfgOptionDef : Type
  CfgOption : Type
  ClientClassDictionary : Type
  D2ClientConfig : Type
  Subnet4 : Type
  Subnet6 : Type

/-- What SrvConfig calls on its members: LoggingInfo::equals, the operator ==
of the five compared members, and D2ClientConfig::getEnableUpdates. -/
structure SrvConfigOps (T : SrvConfigTypes) where
  loggingInfoEquals : T.LoggingInfo → T.LoggingInfo → Bool
  cfgIfaceEq : T.CfgIface → T.CfgIface → Bool
  cfgOptionDefEq : T.CfgOptionDef → T.CfgOptionDef → Bool
  cfgOptionEq : T.CfgOption → T.CfgOption → Bool
  classDictionaryEq : T.ClientClassDictionary → T.ClientClassDictionary → Bool
  d2ClientConfigEq : T.D2ClientConfig → T.D2ClientConfig → Bool
  getEnableUpdates : T.D2ClientConfig → Bool

/-- The members of SrvConfig used by equals and getConfigSummary; the subnet
configurations are the collections their getAll() returns. -/
structure SrvConfig (T : SrvConfigTypes) where
  sequence_ : Nat
  logging_info_ : List T.LoggingInfo
  cfg_iface_ : T.CfgIface
  cfg_option_def_ : T.CfgOptionDef
  cfg_option_ : T.CfgOption
  cfg_subnets4_ : List T.Subnet4
  cfg_subnets6_ : List T.Subnet6
  class_dictionary_ : T.ClientClassDictionary
  d2_client_config_ : T.D2ClientConfig

/-- The selection bits of srv_config.h that getConfigSummary tests. -/
structure CfgSel where
  CFGSEL_SUBNET4 : Nat
  CFGSEL_SUBNET6 : Nat
  CFGSEL_DDNS : Nat

/-- The values the selection bits have in srv_config.h. -/
def cfgSel : CfgSel :=
  { CFGSEL_SUBNET4 := 0x00000001, CFGSEL_SUBNET6 := 0x00000002, CFGSEL_DDNS := 0x00000010 }

/-- The value std::string::npos, for a 64 bit size_t. -/
def npos : Nat := 2 ^ 64 - 1

/-- Position of the last occurrence of a character, if there is one. -/
def lastIndexOf (ch : Char) : List Char → Option Nat
  | [] => none
  | x :: xs =>
    match lastIndexOf ch xs with
    | some i => some (i + 1)
    | none => if x = ch then some 0 else none

/-- The call summary.find_last_of(";") for a single character: the position
of its last occurrence, and npos when there is none. -/
def find_last_of (summary : List Char) (ch : Char) : Nat :=
  (lastIndexOf ch summary).getD npos

/-- The end of getConfigSummary (lines 83 to 88): the summary without its
last separator when that separator is two characters before the end;
`summary.length() - 2` is size_t arithmetic. -/
def trimLastSeparator (summary : List Char) : List Char :=
  let last_separator_pos := find_last_of summary ';'
  if last_separator_pos = (summary.length + 2 ^ 64 - 2) % 2 ^ 64 then
    summary.take last_separator_pos
  else summary

/-- What getConfigSummary has written to the stream `s` when it reaches the
test of tellp() (lines 52 to 77). -/
def summaryStream {T : SrvConfigTypes} (ops : SrvConfigOps T) (m : CfgSel)
    (cfg : SrvConfig T) (selection : Nat) : List Char :=
  let s0 : List Char := []
  let s1 :=
    if selection &&& m.CFGSEL_SUBNET4 = m.CFGSEL_SUBNET4 then
      s0 ++
        (if cfg.cfg_subnets4_.length > 0 then
          "added IPv4 subnets: ".toList ++ (Nat.repr cfg.cfg_subnets4_.length).toList
        else "no IPv4 subnets!".toList) ++ "; ".toList
    else s0
  let s2 :=
    if selection &&& m.CFGSEL_SUBNET6 = m.CFGSEL_SUBNET6 then
      s1 ++
        (if cfg.cfg_subnets6_.length > 0 then
          "added IPv6 subnets: ".toList ++ (Nat.repr cfg.cfg_subnets6_.length).toList
        else "no IPv6 subnets!".toList) ++ "; ".toList
    else s1
  if selection &&& m.CFGSEL_DDNS = m.CFGSEL_DDNS then
    s2 ++ "DDNS: ".toList ++
      (if ops.getEnableUpdates cfg.d2_client_config_ then "enabled".toList
        else "disabled".toList) ++ "; ".toList
  else s2

/-- SrvConfig::getConfigSummary. -/
def SrvConfig.getConfigSummary {T : SrvConfigTypes} (ops : SrvConfigOps T) (m : CfgSel)
    (cfg : SrvConfig T) (selection : Nat) : List Char :=
  let s := summaryStream ops m cfg selection
  let s := if s.length = 0 then s ++ "no config details available".toList else s
  trimLastSeparator s

/-- The inner loop of SrvConfig::equals: whether some logger of the other
configuration equals the given one. -/
def SrvConfig.findMatch {T : SrvConfigTypes} (ops : SrvConfigOps T)
    (this_it : T.LoggingInfo) : List T.LoggingInfo → Bool
  | [] => false
  | other_it :: rest =>
    if ops.loggingInfoEquals this_it other_it then true
    else SrvConfig.findMatch ops this_it rest

/-- The outer loop of SrvConfig::equals: false at the first logger without
a match. -/
def SrvConfig.allMatch {T : SrvConfigTypes} (ops : SrvConfigOps T)
    (others : List T.LoggingInfo) : List T.LoggingInfo → Bool
  | [] => true
  | this_it :: rest =>
    if !SrvConfig.findMatch ops this_it others then false
    else SrvConfig.allMatch ops others rest

/-- SrvConfig::equals. -/
def SrvConfig.equals {T : SrvConfigTypes} (ops : SrvConfigOps T)
    (self other : SrvConfig T) : Bool :=
  if self.logging_info_.length ≠ other.logging_info_.length then false
  else if !SrvConfig.allMatch ops other.logging_info_ self.logging_info_ then false
  else
    ops.cfgIfaceEq self.cfg_iface_ other.cfg_iface_ &&
    ops.cfgOptionDefEq self.cfg_option_def_ other.cfg_option_def_ &&
    ops.cfgOptionEq self.cfg_option_ other.cfg_option_ &&
    ops.classDictionaryEq self.class_dictionary_ other.class_dictionary_ &&
    ops.d2ClientConfigEq self.d2_client_config_ other.d2_client_config_

/-- The segments of the summary that the selection asks for, in the order
IPv4 subnets, IPv6 subnets, DDNS. -/
def summarySegments {T : SrvConfigTypes} (ops : SrvConfigOps T) (m : CfgSel)
    (cfg : SrvConfig T) (selection : Nat) : List (List Char) :=
  (if selection &&& m.CFGSEL_SUBNET4 = m.CFGSEL_SUBNET4 then
    [if cfg.cfg_subnets4_.length > 0 then
        "added IPv4 subnets: ".toList ++ (Nat.repr cfg.cfg_subnets4_.length).toList
      else "no IPv4 subnets!".toList]
  else []) ++
  (if selection &&& m.CFGSEL_SUBNET6 = m.CFGSEL_SUBNET6 then
    [if cfg.cfg_subnets6_.length > 0 then
        "added IPv6 subnets: ".toList ++ (Nat.repr cfg.cfg_subnets6_.length).toList
      else "no IPv6 subnets!".toList]
  else []) ++
  (if selection &&& m.CFGSEL_DDNS = m.CFGSEL_DDNS then
    [if ops.getEnableUpdates cfg.d2_client_config_ then "DDNS: enabled".toList
      else "DDNS: disabled".toList]
  else [])

/-- Member types for sample configurations: a logger is its name, a subnet
its number, the D2 client configuration its enable-updates flag, and the
other members carry nothing. -/
def sampleTypes : SrvConfigTypes :=
  { LoggingInfo := String
    CfgIface := Unit
    CfgOptionDef := Unit
    CfgOption := Unit
    ClientClassDictionary := Unit
    D2ClientConfig := Bool
    Subnet4 := Nat
    Subnet6 := Nat }

/-- Equality of the sample members: all of them equivalence relations. -/
def sampleOps : SrvConfigOps sampleTypes :=
  { loggingInfoEquals := fun (a b : String) => decide (a = b)
    cfgIfaceEq := fun _ _ => true
    cfgOptionDefEq := fun _ _ => true
    cfgOptionEq := fun _ _ => true
    classDictionaryEq := fun _ _ => true
    d2ClientConfigEq := fun (a b : Bool) => decide (a = b)
    getEnableUpdates := fun (b : Bool) => b }

/-- A sample configuration with the given loggers and subnets. -/
def sampleConfig (loggers : List String) (subnets4 subnets6 : List Nat) (ddns : Bool) :
    SrvConfig sampleTypes :=
  { sequence_ := 0
    logging_info_ := loggers
    cfg_iface_ := ()
    cfg_option_def_ := ()
    cfg_option_ := ()
    cfg_subnets4_ := subnets4
    cfg_subnets6_ := subnets6
    class_dictionary_ := ()
    d2_client_config_ := ddns }

end isc.dhcp

/-!
# Configuration of the authoritative server (src/bin/auth/config.cc)

The configuration elements (cc/data.h), the DNS names and classes, the
memory data source and the server are not part of config.cc; what config.cc
calls on them is collected in `Api`.  A build method is a function from the
configuration element to the built parser or to the exception it raises;
the recursion between the build of the data sources and the builds of its
members is bounded by a fuel argument.
-/

namespace auth

/-- An exception, by what the catch clauses of configureAuthServer can tell:
an AuthConfigError, another isc::Exception, or anything else. -/
inductive AuthExn where
  | AuthConfigError (what : String)
  | iscException (what : String)
  | other
  deriving DecidableEq, Repr

/-- The values of datasrc::result::Result. -/
inductive Result where
  | SUCCESS
  | EXIST
  | NOTFOUND
  | PARTIALMATCH
  deriving DecidableEq, Repr

/-- What config.cc calls on its collaborators.  `E` is a configuration
element, `S` the server, `DS` a memory data source.  Element::get returns a
NULL pointer (`none`) for an absent key; the accessors raise on an element
of another type.  getMemoryDataSrc is a query, used for the check it makes;
setMemoryDataSrc is taken not to raise, as commit() is to be exception free. -/
structure Api (E S DS : Type) where
  get : E → String → Except AuthExn (Option E)
  listValue : E → Except AuthExn (List E)
  mapValue : E → Except AuthExn (List (String × E))
  stringValue : E → Except AuthExn String
  str : E → String
  rrclassOf : String → Except AuthExn Nat
  nameOf : String → Except AuthExn String
  getMemoryDataSrc : S → Nat → Except AuthExn Unit
  setMemoryDataSrc : S → Nat → Option DS → S
  newMemoryDataSrc : DS
  addZone : DS → Nat → String → Result × DS

/-- A parser object with its members: DatasourcesConfig with datasources_ and
configured_sources_, MemoryDatasourceConfig with rrclass_ and
memory_datasrc_. -/
inductive AuthConfigParser (DS : Type) where
  | DatasourcesConfig (datasources_ : List (AuthConfigParser DS))
      (configured_sources_ : List String)
  | MemoryDatasourceConfig (rrclass_ : Nat) (memory_datasrc_ : Option DS)

/-- The class of which createAuthConfigParser makes a new object. -/
inductive ParserKind where
  | DatasourcesConfig
  | MemoryDatasourceConfig
  deriving DecidableEq, Repr

/-- The server and the record of the commit() calls made so far, each with
the parser it was called on. -/
structure World (S DS : Type) where
  server : S
  commits : List (AuthConfigParser DS)

/-- The apostrophe of the messages. -/
def apostrophe : String := String.singleton (Char.ofNat 39)

/-- The function createAuthConfigParser(server, config_id, internal) of the
unnamed namespace. -/
def createAuthConfigParser (config_id : String) (internal : Bool) :
    Except AuthExn ParserKind :=
  if config_id = "datasources" then Except.ok ParserKind.DatasourcesConfig
  else if internal && config_id = "datasources/memory" then
    Except.ok ParserKind.MemoryDatasourceConfig
  else Except.error (AuthExn.AuthConfigError ("Unknown configuration variable: " ++ config_id))

variable {E S DS : Type}

/-- The loop over the zones in MemoryDatasourceConfig::build. -/
def MemoryDatasourceConfig.zones (api : Api E S DS) (rrclass_ : Nat) :
    List E → DS → Except AuthExn DS
  | [], memory_datasrc_ => Except.ok memory_datasrc_
  | zone_config :: rest, memory_datasrc_ =>
    match api.get zone_config "origin" with
    | Except.error e => Except.error e
    | Except.ok none => Except.error (AuthExn.AuthConfigError "Missing zone origin")
    | Except.ok (some origin) =>
      match api.get zone_config "file" with
      | Except.error e => Except.error e
      | Except.ok none =>
        Except.error (AuthExn.AuthConfigError ("Missing zone file for zone: " ++ api.str origin))
      | Except.ok (some _) =>
        match api.stringValue origin with
        | Except.error e => Except.error e
        | Except.ok originText =>
          match api.nameOf originText with
          | Except.error e => Except.error e
          | Except.ok name =>
            if (api.addZone memory_datasrc_ rrclass_ name).1 = Result.EXIST then
              Except.error
                (AuthExn.AuthConfigError ("zone " ++ api.str origin ++ " already exists"))
            else
              MemoryDatasourceConfig.zones api rrclass_ rest
                (api.addZone memory_datasrc_ rrclass_ name).2

/-- MemoryDatasourceConfig::build, on a new parser. -/
def MemoryDatasourceConfig.build (api : Api E S DS) (server : S) (config_value : E) :
    Except AuthExn (AuthConfigParser DS) :=
  match api.get config_value "class" with
  | Except.error e => Except.error e
  | Except.ok rrclass_elem =>
    match (match rrclass_elem with
        | some elem => api.stringValue elem
        | none => Except.ok "IN") with
    | Except.error e => Except.error e
    | Except.ok classText =>
      match api.rrclassOf classText with
      | Except.error e => Except.error e
      | Except.ok rrclass_ =>
        match api.getMemoryDataSrc server rrclass_ with
        | Except.error e => Except.error e
        | Except.ok _ =>
          match api.get config_value "zones" with
          | Except.error e => Except.error e
          | Except.ok none =>
            Except.ok
              (AuthConfigParser.MemoryDatasourceConfig rrclass_ (some api.newMemoryDataSrc))
          | Except.ok (some zones_config) =>
            match api.listValue zones_config with
            | Except.error e => Except.error e
            | Except.ok zoneList =>
              match MemoryDatasourceConfig.zones api rrclass_ zoneList api.newMemoryDataSrc with
              | Except.error e => Except.error e
              | Except.ok memory_datasrc_ =>
                Except.ok
                  (AuthConfigParser.MemoryDatasourceConfig rrclass_ (some memory_datasrc_))

/-- The loop of DatasourcesConfig::build; `buildChild` is the virtual call
datasrc_config->build(datasrc_elem) on the parser just created, `none` when
the fuel does not reach. -/
def DatasourcesConfig.loop (api : Api E S DS)
    (buildChild : ParserKind → E → Option (Except AuthExn (AuthConfigParser DS))) :
    List E → List (AuthConfigParser DS) → List String →
      Option (Except AuthExn (AuthConfigParser DS))
  | [], datasources_, configured_sources_ =>
    some (Except.ok (AuthConfigParser.DatasourcesConfig datasources_ configured_sources_))
  | datasrc_elem :: rest, datasources_, configured_sources_ =>
    match api.get datasrc_elem "type" with
    | Except.error e => some (Except.error e)
    | Except.ok none => some (Except.error (AuthExn.AuthConfigError "Missing data source type"))
    | Except.ok (some datasrc_type) =>
      match api.stringValue datasrc_type with
      | Except.error e => some (Except.error e)
      | Except.ok typeText =>
        if typeText ∈ configured_sources_ then
          some (Except.error (AuthExn.AuthConfigError
            ("Data source type " ++ apostrophe ++ typeText ++ apostrophe ++
              " already configured")))
        else
          match createAuthConfigParser ("datasources/" ++ typeText) true with
          | Except.error e => some (Except.error e)
          | Except.ok kind =>
            match buildChild kind datasrc_elem with
            | none => none
            | some (Except.error e) => some (Except.error e)
            | some (Except.ok datasrc_config) =>
              DatasourcesConfig.loop api buildChild rest (datasources_ ++ [datasrc_config])
                (configured_sources_ ++ [typeText])

/-- DatasourcesConfig::build, on a new parser. -/
def DatasourcesConfig.build (api : Api E S DS)
    (buildChild : ParserKind → E → Option (Except AuthExn (AuthConfigParser DS)))
    (config_value : E) : Option (Except AuthExn (AuthConfigParser DS)) :=
  match api.listValue config_value with
  | Except.error e => some (Except.error e)
  | Except.ok elems => DatasourcesConfig.loop api buildChild elems [] []

/-- The virtual call parser->build(config_value) on a new parser of the
given class. -/
def buildParser (api : Api E S DS) (server : S) :
    Nat → ParserKind → E → Option (Except AuthExn (AuthConfigParser DS))
  | 0, _, _ => none
  | _ + 1, ParserKind.MemoryDatasourceConfig, config_value =>
    some (MemoryDatasourceConfig.build api server config_value)
  | fuel + 1, ParserKind.DatasourcesConfig, config_value =>
    DatasourcesConfig.build api (fun kind elem => buildParser api server fuel kind elem)
      config_value

mutual
/-- The virtual call parser->commit(): DatasourcesConfig::commit and
MemoryDatasourceConfig::commit; the call is recorded. -/
def AuthConfigParser.commit (api : Api E S DS) :
    AuthConfigParser DS → World S DS → World S DS
  | AuthConfigParser.DatasourcesConfig datasources_ configured_sources_, w =>
    commitList api datasources_
      { w with
        commits := w.commits ++
          [AuthConfigParser.DatasourcesConfig datasources_ configured_sources_] }
  | AuthConfigParser.MemoryDatasourceConfig rrclass_ memory_datasrc_, w =>
    { server := api.setMemoryDataSrc w.server rrclass_ memory_datasrc_
      commits := w.commits ++ [AuthConfigParser.MemoryDatasourceConfig rrclass_ memory_datasrc_] }
/-- The loops that call commit() on each parser of a vector, in its order. -/
def commitList (api : Api E S DS) : List (AuthConfigParser DS) → World S DS → World S DS
  | [], w => w
  | parser :: rest, w => commitList api rest (AuthConfigParser.commit api parser w)
end

/-- The loop of the try block of configureAuthServer. -/
def buildAll (api : Api E S DS) (server : S) (fuel : Nat) :
    List (String × E) → List (AuthConfigParser DS) →
      Option (Except AuthExn (List (AuthConfigParser DS)))
  | [], parsers => some (Except.ok parsers)
  | config_pair :: rest, parsers =>
    if config_pair.1 = "database_file" then buildAll api server fuel rest parsers
    else
      match createAuthConfigParser config_pair.1 false with
      | Except.error e => some (Except.error e)
      | Except.ok kind =>
        match buildParser api server fuel kind config_pair.2 with
        | none => none
        | some (Except.error e) => some (Except.error e)
        | some (Except.ok parser) => buildAll api server fuel rest (parsers ++ [parser])

/-- The try block of configureAuthServer: the parsers built, or the
exception that leaves the block. -/
def tryBlock (api : Api E S DS) (server : S) (fuel : Nat) (config_set : E) :
    Option (Except AuthExn (List (AuthConfigParser DS))) :=
  match api.mapValue config_set with
  | Except.error e => some (Except.error e)
  | Except.ok pairs => buildAll api server fuel pairs []

/-- The function configureAuthServer; a NULL config_set is `none`. -/
def configureAuthServer (api : Api E S DS) (fuel : Nat) (w : World S DS)
    (config_set : Option E) : Option (Except AuthExn Unit × World S DS) :=
  match config_set with
  | none =>
    some (Except.error (AuthExn.AuthConfigError "Null pointer is passed to configuration parser"),
      w)
  | some config =>
    match tryBlock api w.server fuel config with
    | none => none
    | some (Except.error (AuthExn.AuthConfigError what)) =>
      some (Except.error (AuthExn.AuthConfigError what), w)
    | some (Except.error (AuthExn.iscException what)) =>
      some (Except.error (AuthExn.AuthConfigError ("Server configuration failed: " ++ what)), w)
    | some (Except.error AuthExn.other) => some (Except.error AuthExn.other, w)
    | some (Except.ok parsers) => some (Except.ok (), commitList api parsers w)

mutual
/-- The parsers on which a commit() of the given parser calls commit(), in
the order of the calls: the parser, then the members of a DatasourcesConfig. -/
def commitOrder : AuthConfigParser DS → List (AuthConfigParser DS)
  | AuthConfigParser.DatasourcesConfig datasources_ configured_sources_ =>
    AuthConfigParser.DatasourcesConfig datasources_ configured_sources_ ::
      commitOrderList datasources_
  | AuthConfigParser.MemoryDatasourceConfig rrclass_ memory_datasrc_ =>
    [AuthConfigParser.MemoryDatasourceConfig rrclass_ memory_datasrc_]
/-- The commit() calls for a vector of parsers, in its order. -/
def commitOrderList : List (AuthConfigParser DS) → List (AuthConfigParser DS)
  | [] => []
  | parser :: rest => commitOrder parser ++ commitOrderList rest
end

/-- A configuration element for sample configurations. -/
inductive Json where
  | str (s : String)
  | list (l : List Json)
  | map (m : List (String × Json))

/-- Collaborators over `Json`: the server is the list of the data sources
set, a data source the list of the origins of its zones; only the class IN
(1) is supported by the server. -/
def sampleApi : Api Json (List (Nat × Option (List String))) (List String) :=
  { get := fun e k =>
      match e with
      | Json.map m => Except.ok (m.lookup k)
      | _ => Except.error (AuthExn.iscException "get() called on a non-map element")
    listValue := fun e =>
      match e with
      | Json.list l => Except.ok l
      | _ => Except.error (AuthExn.iscException "listValue() called on a non-list element")
    mapValue := fun e =>
      match e with
      | Json.map m => Except.ok m
      | _ => Except.error (AuthExn.iscException "mapValue() called on a non-map element")
    stringValue := fun e =>
      match e with
      | Json.str t => Except.ok t
      | _ => Except.error (AuthExn.iscException "stringValue() called on a non-string element")
    str := fun e =>
      match e with
      | Json.str t => t
      | _ => "..."
    rrclassOf := fun t =>
      if t = "IN" then Except.ok 1
      else if t = "CH" then Except.ok 3
      else Except.error (AuthExn.iscException "Unrecognized RR class")
    nameOf := fun t => Except.ok t
    getMemoryDataSrc := fun _ rrclass =>
      if rrclass = 1 then Except.ok ()
      else Except.error (AuthExn.iscException "Memory data source is not supported for the class")
    setMemoryDataSrc := fun server rrclass ds => (rrclass, ds) :: server
    newMemoryDataSrc := []
    addZone := fun ds _ name =>
      if name ∈ ds then (Result.EXIST, ds) else (Result.SUCCESS, ds ++ [name]) }

/-- A server without data sources on which nothing was committed. -/
def sampleWorld : World (List (Nat × Option (List String))) (List String) :=
  { server := [], commits := [] }

/-- A configuration with a memory data source of the given zones, each an
origin and, when given, a file. -/
def sampleConfigSet (zones : List (String × Option String)) : Json :=
  Json.map
    [("database_file", Json.str "zone.sqlite3"),
      ("datasources", Json.list
        [Json.map
          [("type", Json.str "memory"),
            ("zones", Json.list (zones.map fun z =>
              Json.map ([("origin", Json.str z.1)] ++
                (match z.2 with
                  | some file => [("file", Json.str file)]
                  | none => []))))]])]

end auth

/-! ## How doRead and doWrite end -/

namespace isc.http

variable {P : Type}

theorem stopThisConnection_eq (env : Env P) (c : HttpConnection P) :
    stopThisConnection env c = ({ c with trace := c.trace ++ [Event.poolStop] }, none) :=
  rfl

theorem doRead_eq (env : Env P) (c : HttpConnection P) :
    doRead env c =
      match env.raises c.trace
          (Event.socketAsyncReceive c.buf_.length BoundCallback.socketReadCallback) with
      | none =>
        ({ c with
            trace := c.trace ++
              [Event.socketAsyncReceive c.buf_.length BoundCallback.socketReadCallback]
            pendingReads := c.pendingReads + 1 }, none)
      | some Exn.stdException =>
        ({ c with
            trace := c.trace ++
              [Event.socketAsyncReceive c.buf_.length BoundCallback.socketReadCallback,
                Event.poolStop] }, none)
      | some Exn.other =>
        ({ c with
            trace := c.trace ++
              [Event.socketAsyncReceive c.buf_.length BoundCallback.socketReadCallback] },
          some Exn.other) := by
  unfold doRead catchStd andThen extCall stopThisConnection catchAll extCall
  cases h : env.raises c.trace
      (Event.socketAsyncReceive c.buf_.length BoundCallback.socketReadCallback) with
  | none => simp
  | some e => cases e <;> simp

theorem doWrite_empty (env : Env P) (c : HttpConnection P) (h : c.output_buf_ = []) :
    doWrite env c = (c, none) := by
  simp [doWrite, catchStd, h]

theorem doWrite_eq (env : Env P) (c : HttpConnection P) (h : c.output_buf_ ≠ []) :
    doWrite env c =
      match env.raises c.trace
          (Event.socketAsyncSend c.output_buf_ BoundCallback.socketWriteCallback) with
      | none =>
        ({ c with
            trace := c.trace ++
              [Event.socketAsyncSend c.output_buf_ BoundCallback.socketWriteCallback]
            pendingWrites := c.pendingWrites + 1 }, none)
      | some Exn.stdException =>
        ({ c with
            trace := c.trace ++
              [Event.socketAsyncSend c.output_buf_ BoundCallback.socketWriteCallback,
                Event.poolStop] }, none)
      | some Exn.other =>
        ({ c with
            trace := c.trace ++
              [Event.socketAsyncSend c.output_buf_ BoundCallback.socketWriteCallback] },
          some Exn.other) := by
  have hne : c.output_buf_.isEmpty = false := by
    cases hb : c.output_buf_ with
    | nil => exact absurd hb h
    | cons a l => rfl
  unfold doWrite catchStd andThen extCall stopThisConnection catchAll extCall
  cases h2 : env.raises c.trace
      (Event.socketAsyncSend c.output_buf_ BoundCallback.socketWriteCallback) with
  | none => simp [hne, h2]
  | some e => cases e <;> simp [hne, h2]

/-- What doRead leaves: one asyncReceive call, followed by the pool stop when
that call raised a std::exception; the members other than the number of
outstanding reads are as before. -/
theorem doRead_calls (env : Env P) (c : HttpConnection P) :
    (doRead env c).1.output_buf_ = c.output_buf_ ∧
    (doRead env c).1.request_ = c.request_ ∧
    ∃ tail, (tail = [] ∨ tail = [Event.poolStop]) ∧
      (doRead env c).1.trace =
        c.trace ++
          Event.socketAsyncReceive c.buf_.length BoundCallback.socketReadCallback :: tail := by
  rw [doRead_eq env c]
  cases hr : env.raises c.trace
      (Event.socketAsyncReceive c.buf_.length BoundCallback.socketReadCallback) with
  | none => exact ⟨rfl, rfl, [], Or.inl rfl, rfl⟩
  | some e =>
    cases e with
    | stdException => exact ⟨rfl, rfl, [Event.poolStop], Or.inr rfl, rfl⟩
    | other => exact ⟨rfl, rfl, [], Or.inl rfl, rfl⟩

/-- What doWrite leaves for a non-empty write buffer: one asyncSend call of
the buffer, followed by the pool stop when that call raised a std::exception;
the buffer is as before. -/
theorem doWrite_nonempty (env : Env P) (c : HttpConnection P) (h : c.output_buf_ ≠ []) :
    (doWrite env c).1.output_buf_ = c.output_buf_ ∧
    ∃ tail, (tail = [] ∨ tail = [Event.poolStop]) ∧
      (doWrite env c).1.trace =
        c.trace ++
          Event.socketAsyncSend c.output_buf_ BoundCallback.socketWriteCallback :: tail := by
  rw [doWrite_eq env c h]
  cases hr : env.raises c.trace
      (Event.socketAsyncSend c.output_buf_ BoundCallback.socketWriteCallback) with
  | none => exact ⟨rfl, [], Or.inl rfl, rfl⟩
  | some e =>
    cases e with
    | stdException => exact ⟨rfl, [Event.poolStop], Or.inr rfl, rfl⟩
    | other => exact ⟨rfl, [], Or.inl rfl, rfl⟩

/-- What doWrite leaves in the trace: nothing for an empty write buffer, else
the asyncSend of the buffer and at most the pool stop after it. -/
theorem doWrite_calls (env : Env P) (c : HttpConnection P) :
    (doWrite env c).1.output_buf_ = c.output_buf_ ∧
    (doWrite env c).1.request_ = c.request_ ∧
    (c.output_buf_ = [] → (doWrite env c).1.trace = c.trace) ∧
    (c.output_buf_ ≠ [] →
      ∃ tail, (tail = [] ∨ tail = [Event.poolStop]) ∧
        (doWrite env c).1.trace =
          c.trace ++
            Event.socketAsyncSend c.output_buf_ BoundCallback.socketWriteCallback :: tail) := by
  by_cases hb : c.output_buf_ = []
  · rw [doWrite_empty env c hb]
    exact ⟨rfl, rfl, fun _ => rfl, fun hne => absurd hb hne⟩
  · refine ⟨(doWrite_nonempty env c hb).1, ?_, fun h0 => absurd h0 hb,
      fun _ => (doWrite_nonempty env c hb).2⟩
    rw [doWrite_eq env c hb]
    cases hr : env.raises c.trace
        (Event.socketAsyncSend c.output_buf_ BoundCallback.socketWriteCallback) with
    | none => rfl
    | some e => cases e <;> rfl

/-! ## Write completions -/

/-- C7: when a write completion reports n bytes with n below the size of the
write buffer, socketWriteCallback leaves the old buffer without its first n
bytes (size s - n) and issues exactly one asyncSend, of that remainder; the
only call that can follow is the pool stop of doWrite when asyncSend raises. -/
theorem socketWriteCallback_remainder (env : Env P) (ec : ErrorCode) (n : Nat)
    (c : HttpConnection P) (h : n < c.output_buf_.length) :
    (socketWriteCallback env ec n c).1.output_buf_ = c.output_buf_.drop n ∧
    (socketWriteCallback env ec n c).1.output_buf_.length = c.output_buf_.length - n ∧
    ∃ tail, (tail = [] ∨ tail = [Event.poolStop]) ∧
      (socketWriteCallback env ec n c).1.trace =
        c.trace ++
          Event.socketAsyncSend (c.output_buf_.drop n) BoundCallback.socketWriteCallback ::
            tail := by
  have hle : n ≤ c.output_buf_.length := Nat.le_of_lt h
  have hne : ({ c with output_buf_ := c.output_buf_.drop n } : HttpConnection P).output_buf_
      ≠ [] := by
    intro h0
    have h1 : (c.output_buf_.drop n).length = 0 := by
      have h2 : c.output_buf_.drop n = [] := h0
      rw [h2]; rfl
    rw [List.length_drop] at h1
    omega
  have heq : socketWriteCallback env ec n c
      = doWrite env { c with output_buf_ := c.output_buf_.drop n } := by
    simp [socketWriteCallback, hle]
  rw [heq]
  obtain ⟨hbuf, tail, htail, htrace⟩ := doWrite_nonempty env _ hne
  exact ⟨hbuf, by rw [hbuf]; exact List.length_drop _ _, tail, htail, htrace⟩

/-- Witness of C7: one byte of the two byte buffer OK was taken. -/
theorem socketWriteCallback_remainder_witness :
    1 < sampleWriting.output_buf_.length ∧
    (socketWriteCallback sampleEnv 0 1 sampleWriting).1.output_buf_ = ['K'] :=
  ⟨by decide, (socketWriteCallback_remainder sampleEnv 0 1 sampleWriting (by decide)).1⟩

/-- C3, as stated, fails: the completion of the whole buffer OK makes no
call at all, so the pool is not asked to stop the connection. -/
theorem socketWriteCallback_full_counterexample :
    sampleWriting.output_buf_.length = 2 ∧
    Event.poolStop ∉ (socketWriteCallback sampleEnv 0 2 sampleWriting).1.trace := by
  decide

/-- C3, amended: when the write completion reports the whole write buffer
sent, socketWriteCallback empties the buffer, calls no collaborator (no
further write, and no pool stop either) and returns normally. -/
theorem socketWriteCallback_full (env : Env P) (ec : ErrorCode) (c : HttpConnection P) :
    socketWriteCallback env ec c.output_buf_.length c = ({ c with output_buf_ := [] }, none) := by
  have h : socketWriteCallback env ec c.output_buf_.length c
      = doWrite env { c with output_buf_ := c.output_buf_.drop c.output_buf_.length } := by
    simp [socketWriteCallback]
  rw [h, doWrite_empty env _ (by simp)]
  simp

/-! ## Socket errors -/

/-- C5, as stated, fails: a read completion with error 104 (connection reset)
feeds the parser and starts another read, and no pool stop is requested. -/
theorem socketCallback_error_counterexample :
    (104 : ErrorCode) ≠ operation_aborted ∧
    localStringInBuf (sampleConn []).buf_ 0 = true ∧
    (SocketCallback (socketReadCallback sampleEnv) 104 0 (sampleConn [])).1.trace
      = [Event.parserPostBuffer [], Event.parserPoll,
          Event.socketAsyncReceive 96 BoundCallback.socketReadCallback] := by
  decide

/-- C5, amended: a read or write completion with a socket error other than
operation_aborted is handed to the handler, and the handler does with it
exactly what it does with a successful completion of the same length. -/
theorem socketCallback_error_ignored (env : Env P) (ec : ErrorCode) (length : Nat)
    (c : HttpConnection P) (h : ec ≠ operation_aborted) :
    SocketCallback (socketReadCallback env) ec length c = socketReadCallback env 0 length c ∧
    SocketCallback (socketWriteCallback env) ec length c
      = socketWriteCallback env 0 length c := by
  simp [SocketCallback, h, socketReadCallback, socketWriteCallback]

/-- Witness of C5 amended: error 104 on the write of OK, one byte taken. -/
theorem socketCallback_error_ignored_witness :
    (104 : ErrorCode) ≠ operation_aborted ∧
    SocketCallback (socketWriteCallback sampleEnv) 104 1 sampleWriting
      = socketWriteCallback sampleEnv 0 1 sampleWriting :=
  ⟨by decide, (socketCallback_error_ignored sampleEnv 104 1 sampleWriting (by decide)).2⟩

/-! ## Stopping -/

/-- C10, as stated, fails: two calls of close() make two calls of
socket_.close() and no timer cancellation, and two calls of
stopThisConnection() make two pool stop requests. -/
theorem stop_twice_counterexample :
    (close sampleEnv (close sampleEnv (sampleConn [])).1).1.trace.count Event.socketClose = 2 ∧
    (close sampleEnv (close sampleEnv (sampleConn [])).1).1.trace.count Event.timerCancel = 0 ∧
    (stopThisConnection sampleEnv
      (stopThisConnection sampleEnv (sampleConn [])).1).1.trace.count Event.poolStop = 2 := by
  decide

/-- C10, amended: each call of close() calls socket_.close() once and each
call of stopThisConnection() asks the pool once to stop the connection, so
two calls make two; nothing else of the connection changes, no timer is
cancelled, and stopThisConnection returns normally. -/
theorem stop_twice (env : Env P) (c : HttpConnection P) :
    (close env (close env c).1).1
      = { c with trace := c.trace ++ [Event.socketClose, Event.socketClose] } ∧
    stopThisConnection env (stopThisConnection env c).1
      = ({ c with trace := c.trace ++ [Event.poolStop, Event.poolStop] }, none) := by
  simp [close, stopThisConnection, catchAll, extCall]

/-! ## Read completions -/

theorem localStringRaises_of_inBuf (buf : Bytes) (n : Nat)
    (hin : localStringInBuf buf n = true) : localStringRaises buf n = false := by
  simp [localStringRaises, hin]

theorem socketReadCallback_raises (env : Env P) (ec : ErrorCode) (n : Nat)
    (c : HttpConnection P) (h : localStringRaises c.buf_ n = true) :
    socketReadCallback env ec n c = (c, some Exn.stdException) := by
  simp [socketReadCallback, h]

theorem socketReadCallback_needData (env : Env P) (ec : ErrorCode) (n : Nat)
    (c : HttpConnection P) (hraise : localStringRaises c.buf_ n = false)
    (h : env.needData (fedRequest env c n) = true) :
    socketReadCallback env ec n c =
      doRead env
        { c with
          request_ := fedRequest env c n
          trace := c.trace ++ [Event.parserPostBuffer (c.buf_.take n), Event.parserPoll] } := by
  unfold fedRequest at h
  simp [socketReadCallback, fedRequest, h, hraise]

theorem asyncSendResponse_ok (env : Env P) (r : HttpResponse) (b : Bytes)
    (c : HttpConnection P) (hs : r.toString = Except.ok b) :
    asyncSendResponse env r c = doWrite env { c with output_buf_ := b } := by
  simp [asyncSendResponse, hs]

theorem socketReadCallback_done (env : Env P) (ec : ErrorCode) (n : Nat)
    (c : HttpConnection P) (r : HttpResponse) (b : Bytes)
    (hraise : localStringRaises c.buf_ n = false)
    (h : env.needData (fedRequest env c n) = false)
    (hr : env.createHttpResponse (env.finalize (fedRequest env c n)).1 = Except.ok r)
    (hs : r.toString = Except.ok b) :
    socketReadCallback env ec n c =
      doWrite env
        { c with
          request_ := (env.finalize (fedRequest env c n)).1
          trace := c.trace ++ [Event.parserPostBuffer (c.buf_.take n), Event.parserPoll,
            Event.requestFinalize,
            Event.createHttpResponse (env.finalize (fedRequest env c n)).1]
          output_buf_ := b } := by
  unfold fedRequest at h hr
  simp [socketReadCallback, fedRequest, h, callCreateHttpResponse, hr, asyncSendResponse, hs,
    hraise]

theorem requestTimeoutCallback_ok (env : Env P) (c : HttpConnection P) (r : HttpResponse)
    (b : Bytes)
    (hr : env.createStockHttpResponse c.request_ HttpStatusCode.REQUEST_TIMEOUT = Except.ok r)
    (hs : r.toString = Except.ok b) :
    requestTimeoutCallback env c =
      doWrite env
        { c with
          trace := c.trace ++
            [Event.createStockHttpResponse c.request_ HttpStatusCode.REQUEST_TIMEOUT]
          output_buf_ := b } := by
  simp [requestTimeoutCallback, callCreateStockHttpResponse, hr, asyncSendResponse, hs]

theorem socketReadCallback_done_fields (env : Env P) (ec : ErrorCode) (n : Nat)
    (c : HttpConnection P) (r : HttpResponse) (b : Bytes)
    (hraise : localStringRaises c.buf_ n = false)
    (h : env.needData (fedRequest env c n) = false)
    (hr : env.createHttpResponse (env.finalize (fedRequest env c n)).1 = Except.ok r)
    (hs : r.toString = Except.ok b) :
    (socketReadCallback env ec n c).1.output_buf_ = b ∧
    (socketReadCallback env ec n c).1.request_ = (env.finalize (fedRequest env c n)).1 := by
  rw [socketReadCallback_done env ec n c r b hraise h hr hs]
  exact ⟨(doWrite_calls env _).1, (doWrite_calls env _).2.1⟩

/-- C4, as stated, fails: after a read completion of zero bytes with the
parser still in need of data, socketReadCallback starts another read and
asks for no pool stop. -/
theorem socketReadCallback_zero_counterexample :
    sampleEnv.needData (fedRequest sampleEnv (sampleConn []) 0) = true ∧
    localStringInBuf (sampleConn []).buf_ 0 = true ∧
    (socketReadCallback sampleEnv 0 0 (sampleConn [])).1.trace
      = [Event.parserPostBuffer [], Event.parserPoll,
          Event.socketAsyncReceive 96 BoundCallback.socketReadCallback] ∧
    (socketReadCallback sampleEnv 0 0 (sampleConn [])).1.pendingReads = 1 := by
  decide

/-- C4, amended: after a read completion of zero bytes with the parser still
in need of data, where the local string of line 133 lies within buf_,
socketReadCallback feeds the parser the empty input, polls it and issues
exactly one further read; it creates and writes no response and leaves the
write buffer alone; the pool stop is requested only when starting that read
raises a std::exception. -/
theorem socketReadCallback_zero_needData (env : Env P) (ec : ErrorCode)
    (c : HttpConnection P) (hin : localStringInBuf c.buf_ 0 = true)
    (h : env.needData (fedRequest env c 0) = true) :
    (socketReadCallback env ec 0 c).1.output_buf_ = c.output_buf_ ∧
    ∃ tail, (tail = [] ∨ tail = [Event.poolStop]) ∧
      (socketReadCallback env ec 0 c).1.trace =
        c.trace ++ [Event.parserPostBuffer [], Event.parserPoll,
          Event.socketAsyncReceive c.buf_.length BoundCallback.socketReadCallback] ++ tail ∧
      (env.raises (c.trace ++ [Event.parserPostBuffer [], Event.parserPoll])
          (Event.socketAsyncReceive c.buf_.length BoundCallback.socketReadCallback)
            ≠ some Exn.stdException → tail = []) := by
  rw [socketReadCallback_needData env ec 0 c (localStringRaises_of_inBuf _ _ hin) h, doRead_eq]
  simp only [List.take_zero]
  cases hr : env.raises (c.trace ++ [Event.parserPostBuffer [], Event.parserPoll])
      (Event.socketAsyncReceive c.buf_.length BoundCallback.socketReadCallback) with
  | none => exact ⟨rfl, [], Or.inl rfl, by simp, fun _ => rfl⟩
  | some e =>
    cases e with
    | stdException => exact ⟨rfl, [Event.poolStop], Or.inr rfl, by simp, fun hn => absurd rfl hn⟩
    | other => exact ⟨rfl, [], Or.inl rfl, by simp, fun _ => rfl⟩

/-- Witness of C4 amended: the zero byte read of the sample connection. -/
theorem socketReadCallback_zero_needData_witness :
    localStringInBuf (sampleConn []).buf_ 0 = true ∧
    sampleEnv.needData (fedRequest sampleEnv (sampleConn []) 0) = true ∧
    (socketReadCallback sampleEnv 0 0 (sampleConn [])).1.output_buf_ = [] :=
  ⟨by decide, by decide,
    (socketReadCallback_zero_needData sampleEnv 0 (sampleConn []) (by decide) (by decide)).1⟩

/-- What holds of a read completion whose local string (line 133) lies
within buf_: when the parser then needs no more data, the response creator
returns a response and the response serializes, socketReadCallback has
called createHttpResponse once, with the connection's request, has put the
serialization into the write buffer, has issued one asyncSend of it when it
is not empty and none when it is empty, and has issued no read; when the
parser still needs data, it has issued exactly one asyncReceive and created
no response.  After the asyncSend or asyncReceive only the pool stop can
follow (when that call raised). -/
theorem socketReadCallback_respond_or_read (env : Env P) (ec : ErrorCode) (n : Nat)
    (c : HttpConnection P) (hin : localStringInBuf c.buf_ n = true) :
    (env.needData (fedRequest env c n) = false →
      ∀ (r : HttpResponse) (b : Bytes),
        env.createHttpResponse (env.finalize (fedRequest env c n)).1 = Except.ok r →
        r.toString = Except.ok b →
        (socketReadCallback env ec n c).1.output_buf_ = b ∧
        (socketReadCallback env ec n c).1.request_ = (env.finalize (fedRequest env c n)).1 ∧
        (b = [] →
          (socketReadCallback env ec n c).1.trace =
            c.trace ++ [Event.parserPostBuffer (c.buf_.take n), Event.parserPoll,
              Event.requestFinalize,
              Event.createHttpResponse (socketReadCallback env ec n c).1.request_]) ∧
        (b ≠ [] →
          ∃ tail, (tail = [] ∨ tail = [Event.poolStop]) ∧
            (socketReadCallback env ec n c).1.trace =
              c.trace ++ [Event.parserPostBuffer (c.buf_.take n), Event.parserPoll,
                Event.requestFinalize,
                Event.createHttpResponse (socketReadCallback env ec n c).1.request_,
                Event.socketAsyncSend b BoundCallback.socketWriteCallback] ++ tail)) ∧
    (env.needData (fedRequest env c n) = true →
      (socketReadCallback env ec n c).1.output_buf_ = c.output_buf_ ∧
      ∃ tail, (tail = [] ∨ tail = [Event.poolStop]) ∧
        (socketReadCallback env ec n c).1.trace =
          c.trace ++ [Event.parserPostBuffer (c.buf_.take n), Event.parserPoll,
            Event.socketAsyncReceive c.buf_.length BoundCallback.socketReadCallback] ++
            tail) := by
  have hraise := localStringRaises_of_inBuf _ _ hin
  constructor
  · intro h r b hr hs
    rw [socketReadCallback_done env ec n c r b hraise h hr hs]
    obtain ⟨hbuf, hreq, hnil, hcons⟩ := doWrite_calls env
      { c with
        request_ := (env.finalize (fedRequest env c n)).1
        trace := c.trace ++ [Event.parserPostBuffer (c.buf_.take n), Event.parserPoll,
          Event.requestFinalize,
          Event.createHttpResponse (env.finalize (fedRequest env c n)).1]
        output_buf_ := b }
    refine ⟨hbuf, hreq, ?_, ?_⟩
    · intro hb
      rw [hreq]
      exact hnil hb
    · intro hb
      obtain ⟨tail, htail, htrace⟩ := hcons hb
      refine ⟨tail, htail, ?_⟩
      rw [hreq, htrace]
      simp
  · intro h
    rw [socketReadCallback_needData env ec n c hraise h]
    obtain ⟨hbuf, _, tail, htail, htrace⟩ := doRead_calls env
      { c with
        request_ := fedRequest env c n
        trace := c.trace ++ [Event.parserPostBuffer (c.buf_.take n), Event.parserPoll] }
    refine ⟨hbuf, tail, htail, ?_⟩
    rw [htrace]
    simp

/-- The sample connection answers the request G. with OK, and reads on after
the two bytes GE. -/
theorem socketReadCallback_respond_or_read_sample :
    localStringInBuf (sampleConn ['G', '.']).buf_ 2 = true ∧
    (socketReadCallback sampleEnv 0 2 (sampleConn ['G', '.'])).1.output_buf_
      = ['O', 'K'] ∧
    (socketReadCallback sampleEnv 0 2 (sampleConn ['G', 'E', 'T', ' '])).1.output_buf_ = [] :=
  ⟨by decide,
    ((socketReadCallback_respond_or_read sampleEnv 0 2 (sampleConn ['G', '.']) (by decide)).1
      (by decide) { toString := Except.ok ['O', 'K'] } ['O', 'K'] rfl rfl).1,
    ((socketReadCallback_respond_or_read sampleEnv 0 2 (sampleConn ['G', 'E', 'T', ' '])
      (by decide)).2 (by decide)).1⟩

/-- C8 does not hold of the code.  The sample connection has received G and
waits for the rest of the request; the read completes with the three bytes
0xC3 0xA9 and the full stop, which end a well formed request.  The first
byte is negative as a char, the count of the local string of line 133 wraps
beyond max_size(), and socketReadCallback is left by std::length_error: the
parser was not fed and still needs data, no response was created, nothing
was written and no further read was issued. -/
theorem socketReadCallback_local_string_failure :
    localStringCount sampleMidRequest.buf_ 3 = 2 ^ 64 - 58 ∧
    localStringRaises sampleMidRequest.buf_ 3 = true ∧
    sampleEnv.needData (fedRequest sampleEnv sampleMidRequest 3) = false ∧
    sampleEnv.httpParseOk (fedRequest sampleEnv sampleMidRequest 3) = true ∧
    (socketReadCallback sampleEnv 0 3 sampleMidRequest).2 = some Exn.stdException ∧
    (socketReadCallback sampleEnv 0 3 sampleMidRequest).1.request_ = ['G'] ∧
    sampleEnv.needData (socketReadCallback sampleEnv 0 3 sampleMidRequest).1.request_ = true ∧
    (socketReadCallback sampleEnv 0 3 sampleMidRequest).1.trace = sampleMidRequest.trace ∧
    (socketReadCallback sampleEnv 0 3 sampleMidRequest).1.output_buf_ = [] ∧
    (socketReadCallback sampleEnv 0 3 sampleMidRequest).1.pendingReads = 0 := by
  decide

/-- C9, as stated, fails: the request X. is malformed (the parser is done
and reports no success, finalize() raises), and the response written is OK,
the one of createHttpResponse, not the stock response 400; the connection
makes no createStockHttpResponse call. -/
theorem socketReadCallback_parse_error_counterexample :
    localStringInBuf (sampleConn ['X', '.']).buf_ 2 = true ∧
    sampleEnv.needData (fedRequest sampleEnv (sampleConn ['X', '.']) 2) = false ∧
    sampleEnv.httpParseOk (fedRequest sampleEnv (sampleConn ['X', '.']) 2) = false ∧
    (sampleEnv.finalize (fedRequest sampleEnv (sampleConn ['X', '.']) 2)).2
      = some Exn.stdException ∧
    (socketReadCallback sampleEnv 0 2 (sampleConn ['X', '.'])).1.trace
      = [Event.parserPostBuffer ['X', '.'], Event.parserPoll, Event.requestFinalize,
          Event.createHttpResponse ['X', '.'],
          Event.socketAsyncSend ['O', 'K'] BoundCallback.socketWriteCallback] ∧
    (socketReadCallback sampleEnv 0 2 (sampleConn ['X', '.'])).1.output_buf_
      ≠ stockBytes HttpStatusCode.BAD_REQUEST := by
  decide

/-- C9, amended: after a read completion (with the local string of line 133
within buf_) at which the parser stops with a parse error, the connection
does what it does after a successful parse: it
calls finalize() (a failure of which it swallows) and createHttpResponse with
its request, never createStockHttpResponse, and the response it writes is
the one createHttpResponse returned; the choice of a stock response is left
to the response creator. -/
theorem socketReadCallback_parse_error (env : Env P) (ec : ErrorCode) (n : Nat)
    (c : HttpConnection P)
    (hin : localStringInBuf c.buf_ n = true)
    (hneed : env.needData (fedRequest env c n) = false)
    (_herr : env.httpParseOk (fedRequest env c n) = false) :
    ∃ tail,
      (socketReadCallback env ec n c).1.trace =
        c.trace ++ [Event.parserPostBuffer (c.buf_.take n), Event.parserPoll,
          Event.requestFinalize,
          Event.createHttpResponse (env.finalize (fedRequest env c n)).1] ++ tail ∧
      (∀ e ∈ tail, e.isResponseCreation = false) ∧
      ∀ (r : HttpResponse) (b : Bytes),
        env.createHttpResponse (env.finalize (fedRequest env c n)).1 = Except.ok r →
        r.toString = Except.ok b →
        (socketReadCallback env ec n c).1.output_buf_ = b ∧
        (b ≠ [] → Event.socketAsyncSend b BoundCallback.socketWriteCallback ∈ tail) := by
  have hraise := localStringRaises_of_inBuf _ _ hin
  have hneed2 := hneed
  unfold fedRequest at hneed2
  cases hc : env.createHttpResponse (env.finalize (fedRequest env c n)).1 with
  | error e =>
    refine ⟨[], ?_, by simp, fun r b hr => by cases hr⟩
    have hc2 := hc
    unfold fedRequest at hc2
    simp [socketReadCallback, fedRequest, hneed2, callCreateHttpResponse, hc2, hraise]
  | ok r =>
    cases hs : r.toString with
    | error e =>
      refine ⟨[], ?_, by simp, fun r2 b2 hr2 hs2 => ?_⟩
      · have hc2 := hc
        unfold fedRequest at hc2
        simp [socketReadCallback, fedRequest, hneed2, callCreateHttpResponse, hc2,
          asyncSendResponse, hs, hraise]
      · cases hr2
        rw [hs] at hs2
        cases hs2
    | ok b =>
      rw [socketReadCallback_done env ec n c r b hraise hneed hc hs]
      obtain ⟨hbuf, _, hnil, hcons⟩ := doWrite_calls env
        { c with
          request_ := (env.finalize (fedRequest env c n)).1
          trace := c.trace ++ [Event.parserPostBuffer (c.buf_.take n), Event.parserPoll,
            Event.requestFinalize,
            Event.createHttpResponse (env.finalize (fedRequest env c n)).1]
          output_buf_ := b }
      by_cases hb : b = []
      · refine ⟨[], ?_, by simp, fun r2 b2 hr2 hs2 => ?_⟩
        · rw [hnil hb]
          simp
        · cases hr2
          rw [hs] at hs2
          cases hs2
          exact ⟨hbuf, fun hne => absurd hb hne⟩
      · obtain ⟨tail, htail, htrace⟩ := hcons hb
        refine ⟨Event.socketAsyncSend b BoundCallback.socketWriteCallback :: tail, ?_, ?_,
          fun r2 b2 hr2 hs2 => ?_⟩
        · rw [htrace]
        · intro e he
          rcases List.mem_cons.mp he with h1 | h1
          · rw [h1]; rfl
          · rcases htail with h2 | h2
            · rw [h2] at h1; cases h1
            · rw [h2] at h1
              rw [List.mem_singleton.mp h1]; rfl
        · cases hr2
          rw [hs] at hs2
          cases hs2
          exact ⟨hbuf, fun _ => List.mem_cons_self _ _⟩

/-- Witness of C9 amended: the malformed request X. of the sample connection. -/
theorem socketReadCallback_parse_error_witness :
    localStringInBuf (sampleConn ['X', '.']).buf_ 2 = true ∧
    sampleEnv.needData (fedRequest sampleEnv (sampleConn ['X', '.']) 2) = false ∧
    sampleEnv.httpParseOk (fedRequest sampleEnv (sampleConn ['X', '.']) 2) = false ∧
    ∃ tail,
      (socketReadCallback sampleEnv 0 2 (sampleConn ['X', '.'])).1.trace =
        [Event.parserPostBuffer ['X', '.'], Event.parserPoll, Event.requestFinalize,
          Event.createHttpResponse ['X', '.']] ++ tail ∧
      ∀ e ∈ tail, e.isResponseCreation = false :=
  ⟨by decide, by decide, by decide,
    (socketReadCallback_parse_error sampleEnv 0 2 (sampleConn ['X', '.'])
      (by decide) (by decide) (by decide)).imp fun _ h => ⟨h.1, h.2.1⟩⟩

/-! ## The request timer -/

/-- C1, as stated, fails: the sample connection has answered the request G.
(the response OK is in its write buffer), and the timer callback that comes
after it asks for a stock response, replaces the write buffer by 408 and
issues a write of it. -/
theorem requestTimeoutCallback_stale_counterexample :
    localStringInBuf (sampleConn ['G', '.']).buf_ 2 = true ∧
    sampleEnv.needData (fedRequest sampleEnv (sampleConn ['G', '.']) 2) = false ∧
    sampleResponded.output_buf_ = ['O', 'K'] ∧
    (requestTimeoutCallback sampleEnv sampleResponded).1.output_buf_ = ['4', '0', '8'] ∧
    callsSince sampleResponded (requestTimeoutCallback sampleEnv sampleResponded).1
      = [Event.createStockHttpResponse ['G', '.'] HttpStatusCode.REQUEST_TIMEOUT,
          Event.socketAsyncSend ['4', '0', '8'] BoundCallback.socketWriteCallback] := by
  decide

/-- C1, amended: also for a connection whose parser has reported completion
(socketReadCallback, with the local string of line 133 within buf_, took the
response branch and the response is in the write buffer),
requestTimeoutCallback asks for the stock response with
status REQUEST_TIMEOUT, replaces the write buffer by its serialization and
issues a write of it when it is not empty. -/
theorem requestTimeoutCallback_after_response (env : Env P) (ec : ErrorCode) (n : Nat)
    (c : HttpConnection P) (r : HttpResponse) (b : Bytes) (r2 : HttpResponse) (b2 : Bytes)
    (hin : localStringInBuf c.buf_ n = true)
    (hneed : env.needData (fedRequest env c n) = false)
    (hr : env.createHttpResponse (env.finalize (fedRequest env c n)).1 = Except.ok r)
    (hs : r.toString = Except.ok b)
    (hr2 : env.createStockHttpResponse (env.finalize (fedRequest env c n)).1
      HttpStatusCode.REQUEST_TIMEOUT = Except.ok r2)
    (hs2 : r2.toString = Except.ok b2) :
    (socketReadCallback env ec n c).1.output_buf_ = b ∧
    (requestTimeoutCallback env (socketReadCallback env ec n c).1).1.output_buf_ = b2 ∧
    (b2 = [] →
      (requestTimeoutCallback env (socketReadCallback env ec n c).1).1.trace =
        (socketReadCallback env ec n c).1.trace ++
          [Event.createStockHttpResponse (env.finalize (fedRequest env c n)).1
            HttpStatusCode.REQUEST_TIMEOUT]) ∧
    (b2 ≠ [] →
      ∃ tail, (tail = [] ∨ tail = [Event.poolStop]) ∧
        (requestTimeoutCallback env (socketReadCallback env ec n c).1).1.trace =
          (socketReadCallback env ec n c).1.trace ++
            [Event.createStockHttpResponse (env.finalize (fedRequest env c n)).1
              HttpStatusCode.REQUEST_TIMEOUT,
              Event.socketAsyncSend b2 BoundCallback.socketWriteCallback] ++ tail) := by
  have h1 := socketReadCallback_done_fields env ec n c r b
    (localStringRaises_of_inBuf _ _ hin) hneed hr hs
  obtain ⟨hbuf, hreq⟩ := h1
  have hr3 : env.createStockHttpResponse (socketReadCallback env ec n c).1.request_
      HttpStatusCode.REQUEST_TIMEOUT = Except.ok r2 := by rw [hreq]; exact hr2
  rw [requestTimeoutCallback_ok env _ r2 b2 hr3 hs2]
  obtain ⟨hbuf2, _, hnil, hcons⟩ := doWrite_calls env
    { (socketReadCallback env ec n c).1 with
      trace := (socketReadCallback env ec n c).1.trace ++
        [Event.createStockHttpResponse (socketReadCallback env ec n c).1.request_
          HttpStatusCode.REQUEST_TIMEOUT]
      output_buf_ := b2 }
  refine ⟨hbuf, hbuf2, ?_, ?_⟩
  · intro hb
    rw [hnil hb, hreq]
  · intro hb
    obtain ⟨tail, htail, htrace⟩ := hcons hb
    refine ⟨tail, htail, ?_⟩
    rw [htrace, hreq]
    simp

/-- Witness of C1 amended: the sample connection after the request G. -/
theorem requestTimeoutCallback_after_response_witness :
    localStringInBuf (sampleConn ['G', '.']).buf_ 2 = true ∧
    sampleEnv.needData (fedRequest sampleEnv (sampleConn ['G', '.']) 2) = false ∧
    (requestTimeoutCallback sampleEnv
      (socketReadCallback sampleEnv 0 2 (sampleConn ['G', '.'])).1).1.output_buf_
        = ['4', '0', '8'] :=
  ⟨by decide, by decide,
    (requestTimeoutCallback_after_response sampleEnv 0 2 (sampleConn ['G', '.'])
      { toString := Except.ok ['O', 'K'] } ['O', 'K']
      { toString := Except.ok ['4', '0', '8'] } ['4', '0', '8']
      (by decide) (by decide) rfl rfl rfl rfl).2.1⟩

/-- C6: for a connection that is still reading (no response was asked for
yet), when the response creator returns the stock response and it
serializes, requestTimeoutCallback has asked the response creator exactly
once, for the stock response with status REQUEST_TIMEOUT for the
connection's request, has put its serialization into the write buffer, and
has issued one asyncSend of it when it is not empty (after which only the
pool stop of doWrite can follow) and none when it is empty. -/
theorem requestTimeoutCallback_reading (env : Env P) (c : HttpConnection P)
    (r : HttpResponse) (b : Bytes)
    (hfresh : ∀ e ∈ c.trace, e.isResponseCreation = false)
    (hr : env.createStockHttpResponse c.request_ HttpStatusCode.REQUEST_TIMEOUT = Except.ok r)
    (hs : r.toString = Except.ok b) :
    (requestTimeoutCallback env c).1.output_buf_ = b ∧
    (requestTimeoutCallback env c).1.trace.filter Event.isResponseCreation
      = [Event.createStockHttpResponse c.request_ HttpStatusCode.REQUEST_TIMEOUT] ∧
    (b = [] →
      (requestTimeoutCallback env c).1.trace =
        c.trace ++ [Event.createStockHttpResponse c.request_ HttpStatusCode.REQUEST_TIMEOUT]) ∧
    (b ≠ [] →
      ∃ tail, (tail = [] ∨ tail = [Event.poolStop]) ∧
        (requestTimeoutCallback env c).1.trace =
          c.trace ++ [Event.createStockHttpResponse c.request_ HttpStatusCode.REQUEST_TIMEOUT,
            Event.socketAsyncSend b BoundCallback.socketWriteCallback] ++ tail) := by
  rw [requestTimeoutCallback_ok env c r b hr hs]
  obtain ⟨hbuf, _, hnil, hcons⟩ := doWrite_calls env
    { c with
      trace := c.trace ++
        [Event.createStockHttpResponse c.request_ HttpStatusCode.REQUEST_TIMEOUT]
      output_buf_ := b }
  have hold : c.trace.filter Event.isResponseCreation = [] := by
    rw [List.filter_eq_nil_iff]
    intro e he
    simp [hfresh e he]
  refine ⟨hbuf, ?_, ?_, ?_⟩
  · by_cases hb : b = []
    · rw [hnil hb]
      simp [List.filter_append, hold, Event.isResponseCreation]
    · obtain ⟨tail, htail, htrace⟩ := hcons hb
      rw [htrace]
      rcases htail with h | h <;>
        simp [h, List.filter_append, List.filter_cons, hold, Event.isResponseCreation]
  · intro hb
    exact hnil hb
  · intro hb
    obtain ⟨tail, htail, htrace⟩ := hcons hb
    refine ⟨tail, htail, ?_⟩
    rw [htrace]
    simp

/-- Witness of C6: the timer of the sample connection expires while it reads. -/
theorem requestTimeoutCallback_reading_witness :
    (∀ e ∈ (sampleConn ['G', 'E', 'T', ' ']).trace, e.isResponseCreation = false) ∧
    (requestTimeoutCallback sampleEnv (sampleConn ['G', 'E', 'T', ' '])).1.output_buf_
      = ['4', '0', '8'] :=
  ⟨by decide,
    (requestTimeoutCallback_reading sampleEnv (sampleConn ['G', 'E', 'T', ' '])
      { toString := Except.ok ['4', '0', '8'] } ['4', '0', '8'] (by decide) rfl rfl).1⟩

/-! ## Outstanding operations -/

theorem doRead_counts (env : Env P) (c : HttpConnection P) :
    outstanding (doRead env c).1 ≤ outstanding c + 1 ∧
    (doRead env c).1.timerArmed = c.timerArmed ∧
    (doRead env c).1.acceptPending = c.acceptPending := by
  rw [doRead_eq env c]
  cases hr : env.raises c.trace
      (Event.socketAsyncReceive c.buf_.length BoundCallback.socketReadCallback) with
  | none => exact ⟨by simp only [outstanding]; omega, rfl, rfl⟩
  | some e => cases e <;> exact ⟨by simp only [outstanding]; omega, rfl, rfl⟩

theorem doWrite_counts (env : Env P) (c : HttpConnection P) :
    outstanding (doWrite env c).1 ≤ outstanding c + 1 ∧
    (doWrite env c).1.timerArmed = c.timerArmed ∧
    (doWrite env c).1.acceptPending = c.acceptPending := by
  by_cases hb : c.output_buf_ = []
  · rw [doWrite_empty env c hb]
    exact ⟨Nat.le_succ _, rfl, rfl⟩
  · rw [doWrite_eq env c hb]
    cases hr : env.raises c.trace
        (Event.socketAsyncSend c.output_buf_ BoundCallback.socketWriteCallback) with
    | none => exact ⟨by simp only [outstanding]; omega, rfl, rfl⟩
    | some e => cases e <;> exact ⟨by simp only [outstanding]; omega, rfl, rfl⟩

theorem asyncSendResponse_counts (env : Env P) (r : HttpResponse) (c : HttpConnection P) :
    outstanding (asyncSendResponse env r c).1 ≤ outstanding c + 1 ∧
    (asyncSendResponse env r c).1.timerArmed = c.timerArmed ∧
    (asyncSendResponse env r c).1.acceptPending = c.acceptPending := by
  unfold asyncSendResponse
  cases hs : r.toString with
  | error e => exact ⟨Nat.le_succ _, rfl, rfl⟩
  | ok b => exact doWrite_counts env { c with output_buf_ := b }

theorem socketReadCallback_counts (env : Env P) (ec : ErrorCode) (n : Nat)
    (c : HttpConnection P) :
    outstanding (socketReadCallback env ec n c).1 ≤ outstanding c + 1 ∧
    (socketReadCallback env ec n c).1.timerArmed = c.timerArmed ∧
    (socketReadCallback env ec n c).1.acceptPending = c.acceptPending := by
  cases hraise : localStringRaises c.buf_ n with
  | true =>
    rw [socketReadCallback_raises env ec n c hraise]
    exact ⟨Nat.le_succ _, rfl, rfl⟩
  | false =>
    cases hneed : env.needData (fedRequest env c n) with
    | true =>
      rw [socketReadCallback_needData env ec n c hraise hneed]
      exact doRead_counts env _
    | false =>
      have hneed2 := hneed
      unfold fedRequest at hneed2
      cases hc : env.createHttpResponse (env.finalize (fedRequest env c n)).1 with
      | error e =>
        have hc2 := hc
        unfold fedRequest at hc2
        simp [socketReadCallback, hneed2, callCreateHttpResponse, hc2, outstanding, hraise]
      | ok r =>
        have hc2 := hc
        unfold fedRequest at hc2
        have h := asyncSendResponse_counts env r
          { c with
            request_ := (env.finalize (fedRequest env c n)).1
            trace := c.trace ++ [Event.parserPostBuffer (c.buf_.take n), Event.parserPoll] ++
              [Event.requestFinalize] ++
              [Event.createHttpResponse (env.finalize (fedRequest env c n)).1] }
        have he : socketReadCallback env ec n c = asyncSendResponse env r
            { c with
              request_ := (env.finalize (fedRequest env c n)).1
              trace := c.trace ++ [Event.parserPostBuffer (c.buf_.take n), Event.parserPoll] ++
                [Event.requestFinalize] ++
                [Event.createHttpResponse (env.finalize (fedRequest env c n)).1] } := by
          simp [socketReadCallback, fedRequest, hneed2, callCreateHttpResponse, hc2, hraise]
        rw [he]
        exact h

theorem socketWriteCallback_counts (env : Env P) (ec : ErrorCode) (n : Nat)
    (c : HttpConnection P) :
    outstanding (socketWriteCallback env ec n c).1 ≤ outstanding c + 1 ∧
    (socketWriteCallback env ec n c).1.timerArmed = c.timerArmed ∧
    (socketWriteCallback env ec n c).1.acceptPending = c.acceptPending := by
  unfold socketWriteCallback
  split
  · exact doWrite_counts env { c with output_buf_ := c.output_buf_.drop n }
  · exact ⟨Nat.le_succ _, rfl, rfl⟩

theorem requestTimeoutCallback_counts (env : Env P) (c : HttpConnection P) :
    outstanding (requestTimeoutCallback env c).1 ≤ outstanding c + 1 ∧
    (requestTimeoutCallback env c).1.timerArmed = c.timerArmed ∧
    (requestTimeoutCallback env c).1.acceptPending = c.acceptPending := by
  cases hc : env.createStockHttpResponse c.request_ HttpStatusCode.REQUEST_TIMEOUT with
  | error e =>
    simp [requestTimeoutCallback, callCreateStockHttpResponse, hc, outstanding]
  | ok r =>
    have he : requestTimeoutCallback env c = asyncSendResponse env r
        { c with
          trace := c.trace ++
            [Event.createStockHttpResponse c.request_ HttpStatusCode.REQUEST_TIMEOUT] } := by
      simp [requestTimeoutCallback, callCreateStockHttpResponse, hc]
    rw [he]
    exact asyncSendResponse_counts env r _

theorem acceptorCallback_counts (env : Env P) (ec : ErrorCode) (c : HttpConnection P) :
    outstanding (acceptorCallback env ec c).1 ≤ outstanding c + 1 ∧
    (acceptorCallback env ec c).1.acceptPending = c.acceptPending ∧
    (ec ≠ 0 → (acceptorCallback env ec c).1.timerArmed = c.timerArmed) := by
  unfold acceptorCallback
  cases ho : env.acceptorIsOpen c.trace with
  | false => simp [outstanding]
  | true =>
    by_cases hec : ec = 0
    · subst hec
      simp only [Bool.not_true, Bool.false_eq_true, if_false, ne_eq, not_true_eq_false,
        if_true, andThen]
      cases h1 : (extCall env (Event.acceptorUserCallback 0) c).2 with
      | some e => simp [extCall, outstanding]
      | none =>
        simp only []
        cases h2 : (extCall env
            (Event.timerSetup BoundCallback.requestTimeoutCallback
              (extCall env (Event.acceptorUserCallback 0) c).1.request_timeout_
              TimerMode.ONE_SHOT) (extCall env (Event.acceptorUserCallback 0) c).1).2 with
        | some e => simp [extCall, outstanding]
        | none =>
          simp only []
          have h := doRead_counts env
            { (extCall env
                (Event.timerSetup BoundCallback.requestTimeoutCallback
                  (extCall env (Event.acceptorUserCallback 0) c).1.request_timeout_
                  TimerMode.ONE_SHOT) (extCall env (Event.acceptorUserCallback 0) c).1).1 with
              timerArmed := true }
          exact ⟨h.1, h.2.2, fun hn => hn.elim⟩
    · simp only [Bool.not_true, Bool.false_eq_true, if_false, ne_eq, hec, not_false_eq_true,
        if_true, andThen, stopThisConnection, catchAll]
      cases h1 : (extCall env (Event.acceptorUserCallback ec)
          (extCall env Event.poolStop c).1).2 with
      | some e => simp [extCall, outstanding]
      | none => simp [extCall, outstanding]

theorem SocketCallback_counts
    (cb : ErrorCode → Nat → HttpConnection P → Outcome P)
    (hcb : ∀ ec n c, outstanding (cb ec n c).1 ≤ outstanding c + 1 ∧
      (cb ec n c).1.timerArmed = c.timerArmed ∧
      (cb ec n c).1.acceptPending = c.acceptPending)
    (ec : ErrorCode) (n : Nat) (c : HttpConnection P) :
    outstanding (SocketCallback cb ec n c).1 ≤ outstanding c + 1 ∧
    (SocketCallback cb ec n c).1.timerArmed = c.timerArmed ∧
    (SocketCallback cb ec n c).1.acceptPending = c.acceptPending := by
  unfold SocketCallback
  split
  · exact ⟨Nat.le_succ _, rfl, rfl⟩
  · exact hcb ec n c

theorem deliver_budget (env : Env P) (c : HttpConnection P) (x : Completion)
    (r : Outcome P) (h : deliver env c x = some r) :
    budget r.1 ≤ budget c ∧
    (x ≠ Completion.timerExpired → budgetNoTimer r.1 ≤ budgetNoTimer c) := by
  cases x with
  | accepted ec =>
    simp only [deliver] at h
    split at h
    · rename_i hacc
      cases h
      obtain ⟨h1, h2, _⟩ := acceptorCallback_counts env ec { c with acceptPending := false }
      have h1b : outstanding (acceptorCallback env ec { c with acceptPending := false }).1
          ≤ outstanding c + 1 := h1
      have h2b : (acceptorCallback env ec { c with acceptPending := false }).1.acceptPending
          = false := h2
      constructor
      · simp only [budget, h2b, hacc, if_true, Bool.false_eq_true, if_false]
        split_ifs <;> omega
      · intro _
        simp only [budgetNoTimer, h2b, hacc, if_true, Bool.false_eq_true, if_false]
        omega
    · cases h
  | received ec data =>
    simp only [deliver] at h
    split at h
    · rename_i hen
      cases h
      obtain ⟨h1, h2, h3⟩ := SocketCallback_counts (socketReadCallback env)
        (socketReadCallback_counts env) ec data.length
        { c with
          pendingReads := c.pendingReads - 1
          buf_ := data ++ c.buf_.drop data.length }
      have h1b : outstanding (SocketCallback (socketReadCallback env) ec data.length
          { c with
            pendingReads := c.pendingReads - 1
            buf_ := data ++ c.buf_.drop data.length }).1 ≤ outstanding c := by
        have hpos := hen.1
        have h0 : outstanding
            ({ c with
              pendingReads := c.pendingReads - 1
              buf_ := data ++ c.buf_.drop data.length } : HttpConnection P) + 1
            = outstanding c := by
          simp only [outstanding]
          omega
        omega
      have h2b : (SocketCallback (socketReadCallback env) ec data.length
          { c with
            pendingReads := c.pendingReads - 1
            buf_ := data ++ c.buf_.drop data.length }).1.timerArmed = c.timerArmed := h2
      have h3b : (SocketCallback (socketReadCallback env) ec data.length
          { c with
            pendingReads := c.pendingReads - 1
            buf_ := data ++ c.buf_.drop data.length }).1.acceptPending = c.acceptPending := h3
      constructor
      · simp only [budget, h2b, h3b]
        omega
      · intro _
        simp only [budgetNoTimer, h3b]
        omega
    · cases h
  | sent ec length =>
    simp only [deliver] at h
    split at h
    · rename_i hen
      cases h
      obtain ⟨h1, h2, h3⟩ := SocketCallback_counts (socketWriteCallback env)
        (socketWriteCallback_counts env) ec length
        { c with pendingWrites := c.pendingWrites - 1 }
      have h1b : outstanding (SocketCallback (socketWriteCallback env) ec length
          { c with pendingWrites := c.pendingWrites - 1 }).1 ≤ outstanding c := by
        have h0 : outstanding
            ({ c with pendingWrites := c.pendingWrites - 1 } : HttpConnection P) + 1
            = outstanding c := by
          simp only [outstanding]
          omega
        omega
      have h2b : (SocketCallback (socketWriteCallback env) ec length
          { c with pendingWrites := c.pendingWrites - 1 }).1.timerArmed = c.timerArmed := h2
      have h3b : (SocketCallback (socketWriteCallback env) ec length
          { c with pendingWrites := c.pendingWrites - 1 }).1.acceptPending
            = c.acceptPending := h3
      constructor
      · simp only [budget, h2b, h3b]
        omega
      · intro _
        simp only [budgetNoTimer, h3b]
        omega
    · cases h
  | timerExpired =>
    simp only [deliver] at h
    split at h
    · rename_i harm
      cases h
      obtain ⟨h1, h2, h3⟩ := requestTimeoutCallback_counts env { c with timerArmed := false }
      have h1b : outstanding (requestTimeoutCallback env { c with timerArmed := false }).1
          ≤ outstanding c + 1 := h1
      have h2b : (requestTimeoutCallback env { c with timerArmed := false }).1.timerArmed
          = false := h2
      have h3b : (requestTimeoutCallback env { c with timerArmed := false }).1.acceptPending
          = c.acceptPending := h3
      constructor
      · simp only [budget, h2b, h3b, harm, if_true, Bool.false_eq_true, if_false]
        omega
      · intro hx
        exact absurd rfl hx
    · cases h

theorem run_budget (env : Env P) (cs : List Completion) :
    ∀ (c s : HttpConnection P), run env cs c = some s →
      budget s ≤ budget c ∧
      (Completion.timerExpired ∉ cs → budgetNoTimer s ≤ budgetNoTimer c) := by
  induction cs with
  | nil =>
    intro c s h
    simp only [run] at h
    cases h
    exact ⟨Nat.le_refl _, fun _ => Nat.le_refl _⟩
  | cons x xs ih =>
    intro c s h
    simp only [run] at h
    cases hd : deliver env c x with
    | none => rw [hd] at h; cases h
    | some r =>
      rw [hd] at h
      obtain ⟨h1, h2⟩ := deliver_budget env c x r hd
      obtain ⟨h3, h4⟩ := ih r.1 s h
      refine ⟨Nat.le_trans h3 h1, fun hmem => ?_⟩
      have hx : x ≠ Completion.timerExpired := fun he => hmem (by rw [he]; exact List.mem_cons_self _ _)
      have hxs : Completion.timerExpired ∉ xs := fun he => hmem (List.mem_cons_of_mem _ he)
      exact Nat.le_trans (h4 hxs) (h2 hx)

theorem started_budget (env : Env P) (request_timeout : Int) (bufSize : Nat) :
    budget (started env request_timeout bufSize) ≤ 2 ∧
    budgetNoTimer (started env request_timeout bufSize) ≤ 1 := by
  unfold started asyncAccept catchStd andThen extCall
  cases hr : env.raises (HttpConnection.new env request_timeout bufSize).trace
      (Event.acceptorAsyncAccept BoundCallback.acceptorCallback) with
  | none => simp [hr, budget, budgetNoTimer, outstanding, HttpConnection.new]
  | some e => cases e <;> simp [hr, budget, budgetNoTimer, outstanding, HttpConnection.new]

/-- C2, as stated, fails: the accept completes and starts the first read,
the request timer expires and requestTimeoutCallback starts a write of the
stock response: a read and a write are outstanding together. -/
theorem outstanding_counterexample :
    (run sampleEnv [Completion.accepted 0, Completion.timerExpired]
      (started sampleEnv 2000 96)).map (fun s => (s.pendingReads, s.pendingWrites))
        = some (1, 1) ∧
    (run sampleEnv [Completion.accepted 0, Completion.timerExpired]
      (started sampleEnv 2000 96)).map outstanding = some 2 := by
  decide

/-- C2, amended: in every state the connection reaches from its start by
completions of the accept, of reads and of writes and by the expiry of the
request timer, at most two asynchronous reads and writes are outstanding,
and at most one in every state reached without an expiry of the timer (no
requestTimeoutCallback step). -/
theorem outstanding_bound (env : Env P) (request_timeout : Int) (bufSize : Nat)
    (cs : List Completion) (s : HttpConnection P)
    (h : run env cs (started env request_timeout bufSize) = some s) :
    outstanding s ≤ 2 ∧ (Completion.timerExpired ∉ cs → outstanding s ≤ 1) := by
  obtain ⟨h1, h2⟩ := run_budget env cs _ s h
  obtain ⟨h3, h4⟩ := started_budget env request_timeout bufSize
  constructor
  · have : outstanding s ≤ budget s := by
      simp only [budget]
      omega
    omega
  · intro hmem
    have : outstanding s ≤ budgetNoTimer s := by
      simp only [budgetNoTimer]
      omega
    have := h2 hmem
    omega

/-- Witness of C2 amended: the sample connection accepts, reads GE and reads
on; one read is outstanding. -/
theorem outstanding_bound_witness :
    ∃ s, run sampleEnv [Completion.accepted 0, Completion.received 0 ['G', 'E']]
        (started sampleEnv 2000 96) = some s ∧
      outstanding s ≤ 1 :=
  ⟨_, rfl, (outstanding_bound sampleEnv 2000 96
    [Completion.accepted 0, Completion.received 0 ['G', 'E']] _ rfl).2 (by decide)⟩

/-! ## Failing collaborators -/

/-- C11, as stated, fails: with a response creator of which createHttpResponse
raises, the read completion of the request G. lets the exception out of
socketReadCallback and asks for no pool stop; the same holds for the timer
callback when the stock response raises on serialization. -/
theorem creator_failure_counterexample :
    localStringInBuf (sampleConn ['G', '.']).buf_ 2 = true ∧
    (socketReadCallback brokenCreatorEnv 0 2 (sampleConn ['G', '.'])).2
      = some Exn.stdException ∧
    Event.poolStop ∉ (socketReadCallback brokenCreatorEnv 0 2 (sampleConn ['G', '.'])).1.trace ∧
    (requestTimeoutCallback brokenCreatorEnv (sampleConn [])).2 = some Exn.stdException ∧
    Event.poolStop ∉ (requestTimeoutCallback brokenCreatorEnv (sampleConn [])).1.trace := by
  decide

/-- C11, amended: when, in a read completion (with the local string of line
133 within buf_) or a timeout, the response creator (createHttpResponse or
createStockHttpResponse) or the serialization of the response raises an
error, the error propagates out of the callback; the callback has asked the
response creator, has requested no stop, has written no response and has
left the write buffer as it was. -/
theorem creator_failure_propagates (env : Env P) (ec : ErrorCode) (n : Nat)
    (c : HttpConnection P) (e : Exn) :
    (localStringInBuf c.buf_ n = true →
      env.needData (fedRequest env c n) = false →
      (env.createHttpResponse (env.finalize (fedRequest env c n)).1 = Except.error e ∨
        ∃ r, env.createHttpResponse (env.finalize (fedRequest env c n)).1 = Except.ok r ∧
          r.toString = Except.error e) →
      socketReadCallback env ec n c =
        ({ c with
            request_ := (env.finalize (fedRequest env c n)).1
            trace := c.trace ++ [Event.parserPostBuffer (c.buf_.take n), Event.parserPoll,
              Event.requestFinalize,
              Event.createHttpResponse (env.finalize (fedRequest env c n)).1] },
          some e)) ∧
    ((env.createStockHttpResponse c.request_ HttpStatusCode.REQUEST_TIMEOUT = Except.error e ∨
        ∃ r, env.createStockHttpResponse c.request_ HttpStatusCode.REQUEST_TIMEOUT
            = Except.ok r ∧ r.toString = Except.error e) →
      requestTimeoutCallback env c =
        ({ c with
            trace := c.trace ++
              [Event.createStockHttpResponse c.request_ HttpStatusCode.REQUEST_TIMEOUT] },
          some e)) := by
  constructor
  · intro hin hneed h
    have hraise := localStringRaises_of_inBuf _ _ hin
    unfold fedRequest at hneed h
    rcases h with h | ⟨r, h, hs⟩
    · simp [socketReadCallback, fedRequest, hneed, callCreateHttpResponse, h, hraise]
    · simp [socketReadCallback, fedRequest, hneed, callCreateHttpResponse, h,
        asyncSendResponse, hs, hraise]
  · intro h
    rcases h with h | ⟨r, h, hs⟩
    · simp [requestTimeoutCallback, callCreateStockHttpResponse, h]
    · simp [requestTimeoutCallback, callCreateStockHttpResponse, h, asyncSendResponse, hs]

/-- Witness of C11 amended: the failing response creator at the request G. -/
theorem creator_failure_propagates_witness :
    localStringInBuf (sampleConn ['G', '.']).buf_ 2 = true ∧
    (socketReadCallback brokenCreatorEnv 0 2 (sampleConn ['G', '.'])).2
      = some Exn.stdException :=
  ⟨by decide,
    congrArg Prod.snd
      ((creator_failure_propagates brokenCreatorEnv 0 2 (sampleConn ['G', '.'])
        Exn.stdException).1 (by decide) (by decide) (Or.inl rfl))⟩

/-- C14, as stated, fails: a socket of which asyncReceive and asyncSend
raise an exception that does not derive from std::exception lets it out of
doRead and doWrite, and no pool stop is requested. -/
theorem io_foreign_exception_counterexample :
    foreignSocketEnv.raises (sampleConn []).trace
      (Event.socketAsyncReceive 96 BoundCallback.socketReadCallback) = some Exn.other ∧
    (doRead foreignSocketEnv (sampleConn [])).2 = some Exn.other ∧
    Event.poolStop ∉ (doRead foreignSocketEnv (sampleConn [])).1.trace ∧
    (doWrite foreignSocketEnv sampleWriting).2 = some Exn.other ∧
    Event.poolStop ∉ (doWrite foreignSocketEnv sampleWriting).1.trace := by
  decide

/-- C14, amended: stopThisConnection returns normally whatever the stop of
the pool does, every error it may raise included; doRead and doWrite return
normally when the socket operation raises a std::exception, after the
request to the pool to stop the connection; an exception of the socket
operation that does not derive from std::exception leaves doRead and
doWrite, and no stop is requested. -/
theorem stop_and_io_contain_errors (env : Env P) (c : HttpConnection P) :
    (stopThisConnection env c).2 = none ∧
    (env.raises c.trace
        (Event.socketAsyncReceive c.buf_.length BoundCallback.socketReadCallback)
          = some Exn.stdException →
      (doRead env c).2 = none ∧
      (doRead env c).1.trace =
        c.trace ++ [Event.socketAsyncReceive c.buf_.length BoundCallback.socketReadCallback,
          Event.poolStop]) ∧
    (c.output_buf_ ≠ [] →
      env.raises c.trace
        (Event.socketAsyncSend c.output_buf_ BoundCallback.socketWriteCallback)
          = some Exn.stdException →
      (doWrite env c).2 = none ∧
      (doWrite env c).1.trace =
        c.trace ++ [Event.socketAsyncSend c.output_buf_ BoundCallback.socketWriteCallback,
          Event.poolStop]) ∧
    (env.raises c.trace
        (Event.socketAsyncReceive c.buf_.length BoundCallback.socketReadCallback)
          = some Exn.other →
      (doRead env c).2 = some Exn.other ∧
      (doRead env c).1.trace =
        c.trace ++
          [Event.socketAsyncReceive c.buf_.length BoundCallback.socketReadCallback]) ∧
    (c.output_buf_ ≠ [] →
      env.raises c.trace
        (Event.socketAsyncSend c.output_buf_ BoundCallback.socketWriteCallback)
          = some Exn.other →
      (doWrite env c).2 = some Exn.other ∧
      (doWrite env c).1.trace =
        c.trace ++
          [Event.socketAsyncSend c.output_buf_ BoundCallback.socketWriteCallback]) := by
  refine ⟨rfl, ?_, ?_, ?_, ?_⟩
  · intro h
    rw [doRead_eq env c, h]
    exact ⟨rfl, rfl⟩
  · intro hb h
    rw [doWrite_eq env c hb, h]
    exact ⟨rfl, rfl⟩
  · intro h
    rw [doRead_eq env c, h]
    exact ⟨rfl, rfl⟩
  · intro hb h
    rw [doWrite_eq env c hb, h]
    exact ⟨rfl, rfl⟩

/-- Witness of C14 amended: the socket raises std::exceptions on
asyncReceive and asyncSend and the pool raises on stop. -/
theorem stop_and_io_contain_errors_witness :
    brokenSocketEnv.raises (sampleConn []).trace Event.poolStop = some Exn.other ∧
    (stopThisConnection brokenSocketEnv (sampleConn [])).2 = none ∧
    (doRead brokenSocketEnv (sampleConn [])).2 = none ∧
    (doWrite brokenSocketEnv sampleWriting).2 = none :=
  ⟨rfl, (stop_and_io_contain_errors brokenSocketEnv (sampleConn [])).1,
    ((stop_and_io_contain_errors brokenSocketEnv (sampleConn [])).2.1 rfl).1,
    ((stop_and_io_contain_errors brokenSocketEnv sampleWriting).2.2.1 (by decide) rfl).1⟩

/-- C15: for every wrapped handler and every length, a completion with error
code operation_aborted leaves the connection as it is and does not run the
handler, and a completion with any other error code, success included, is
exactly one run of the handler with the same error code and length. -/
theorem SocketCallback_guard (callback_ : ErrorCode → Nat → HttpConnection P → Outcome P)
    (length : Nat) (c : HttpConnection P) :
    SocketCallback callback_ operation_aborted length c = (c, none) ∧
    ∀ ec : ErrorCode, ec ≠ operation_aborted →
      SocketCallback callback_ ec length c = callback_ ec length c := by
  constructor
  · simp [SocketCallback]
  · intro ec h
    simp [SocketCallback, h]

/-- Witness of C15: a handler that counts its runs is not run for
operation_aborted and run once for success and for error 104. -/
theorem SocketCallback_guard_witness :
    (SocketCallback countingHandler operation_aborted 7 (sampleConn [])).1.pendingReads = 0 ∧
    (SocketCallback countingHandler 0 7 (sampleConn [])).1.pendingReads = 1 ∧
    SocketCallback countingHandler 104 7 (sampleConn []) = countingHandler 104 7 (sampleConn []) :=
  ⟨congrArg (fun r => r.1.pendingReads) (SocketCallback_guard countingHandler 7 (sampleConn [])).1,
    congrArg (fun r => r.1.pendingReads)
      ((SocketCallback_guard countingHandler 7 (sampleConn [])).2 0 (by decide)),
    (SocketCallback_guard countingHandler 7 (sampleConn [])).2 104 (by decide)⟩

/-! ## The accept -/

theorem acceptorCallback_success (env : Env P) (c : HttpConnection P)
    (hopen : env.acceptorIsOpen c.trace = true)
    (huser : env.raises c.trace (Event.acceptorUserCallback 0) = none) :
    acceptorCallback env 0 c =
      match env.raises (c.trace ++ [Event.acceptorUserCallback 0])
          (Event.timerSetup BoundCallback.requestTimeoutCallback c.request_timeout_
            TimerMode.ONE_SHOT) with
      | some e =>
        ({ c with
            trace := c.trace ++ [Event.acceptorUserCallback 0,
              Event.timerSetup BoundCallback.requestTimeoutCallback c.request_timeout_
                TimerMode.ONE_SHOT] }, some e)
      | none =>
        doRead env
          { c with
            trace := c.trace ++ [Event.acceptorUserCallback 0,
              Event.timerSetup BoundCallback.requestTimeoutCallback c.request_timeout_
                TimerMode.ONE_SHOT]
            timerArmed := true } := by
  unfold acceptorCallback
  simp only [hopen, Bool.not_true, Bool.false_eq_true, if_false, ne_eq, not_true_eq_false,
    if_true, andThen, extCall, huser]
  cases hs : env.raises (c.trace ++ [Event.acceptorUserCallback 0])
      (Event.timerSetup BoundCallback.requestTimeoutCallback c.request_timeout_
        TimerMode.ONE_SHOT) with
  | none => simp
  | some e => simp

/-- C12: an acceptorCallback invocation with no error while the acceptor is
open (the acceptor callback of the user and the timer returning normally)
sets up the request timer once, in one-shot mode, with the configured request
timeout and requestTimeoutCallback as its callback, and then issues exactly
one asyncReceive (after which only the pool stop of doRead can follow); an
invocation with an error sets up no timer and issues no read, and neither
does one with the acceptor not open, which does nothing at all. -/
theorem acceptorCallback_arms_and_reads (env : Env P) (ec : ErrorCode)
    (c : HttpConnection P) :
    (env.acceptorIsOpen c.trace = true → ec = 0 →
      env.raises c.trace (Event.acceptorUserCallback 0) = none →
      env.raises (c.trace ++ [Event.acceptorUserCallback 0])
        (Event.timerSetup BoundCallback.requestTimeoutCallback c.request_timeout_
          TimerMode.ONE_SHOT) = none →
      (acceptorCallback env ec c).1.timerArmed = true ∧
      ∃ tail, (tail = [] ∨ tail = [Event.poolStop]) ∧
        (acceptorCallback env ec c).1.trace =
          c.trace ++ [Event.acceptorUserCallback 0,
            Event.timerSetup BoundCallback.requestTimeoutCallback c.request_timeout_
              TimerMode.ONE_SHOT,
            Event.socketAsyncReceive c.buf_.length BoundCallback.socketReadCallback] ++ tail) ∧
    (env.acceptorIsOpen c.trace = true → ec ≠ 0 →
      (acceptorCallback env ec c).1 =
        { c with trace := c.trace ++ [Event.poolStop, Event.acceptorUserCallback ec] }) ∧
    (env.acceptorIsOpen c.trace = false → acceptorCallback env ec c = (c, none)) := by
  refine ⟨?_, ?_, ?_⟩
  · intro hopen hec huser hsetup
    subst hec
    rw [acceptorCallback_success env c hopen huser, hsetup]
    simp only []
    obtain ⟨_, _, tail, htail, htrace⟩ := doRead_calls env
      { c with
        trace := c.trace ++ [Event.acceptorUserCallback 0,
          Event.timerSetup BoundCallback.requestTimeoutCallback c.request_timeout_
            TimerMode.ONE_SHOT]
        timerArmed := true }
    refine ⟨(doRead_counts env _).2.1, tail, htail, ?_⟩
    rw [htrace]
    simp
  · intro hopen hec
    unfold acceptorCallback
    simp only [hopen, Bool.not_true, Bool.false_eq_true, if_false, ne_eq, hec,
      not_false_eq_true, if_true, andThen, stopThisConnection, catchAll, extCall]
    cases hu : env.raises (c.trace ++ [Event.poolStop]) (Event.acceptorUserCallback ec) with
    | none => simp
    | some e => simp
  · intro hopen
    simp [acceptorCallback, hopen]

/-- Witness of C12: the sample connection accepts without error. -/
theorem acceptorCallback_arms_and_reads_witness :
    sampleEnv.acceptorIsOpen (sampleConn []).trace = true ∧
    (acceptorCallback sampleEnv 0 (sampleConn [])).1.timerArmed = true ∧
    (acceptorCallback sampleEnv 104 (sampleConn [])).1.timerArmed = false :=
  ⟨rfl,
    ((acceptorCallback_arms_and_reads sampleEnv 0 (sampleConn [])).1 rfl rfl rfl rfl).1,
    congrArg HttpConnection.timerArmed
      ((acceptorCallback_arms_and_reads sampleEnv 104 (sampleConn [])).2.1 rfl (by decide))⟩

/-- C13, as stated, fails: connections configured with a request timeout of
0 and of -5 make the Timer setup call, with that value, on a successful
accept. -/
theorem acceptorCallback_timeout_zero_counterexample :
    (acceptorCallback sampleEnv 0 (sampleConnWith 0)).1.trace
      = [Event.acceptorUserCallback 0,
          Event.timerSetup BoundCallback.requestTimeoutCallback 0 TimerMode.ONE_SHOT,
          Event.socketAsyncReceive 96 BoundCallback.socketReadCallback] ∧
    (acceptorCallback sampleEnv 0 (sampleConnWith (-5))).1.trace
      = [Event.acceptorUserCallback 0,
          Event.timerSetup BoundCallback.requestTimeoutCallback (-5) TimerMode.ONE_SHOT,
          Event.socketAsyncReceive 96 BoundCallback.socketReadCallback] := by
  decide

/-- C13, amended: for a connection configured with a request timeout of 0 or
a negative number of milliseconds, a successful accept makes the Timer setup
call all the same, with that value and in one-shot mode; the first read is
issued when the setup call returns normally, and when it raises, the error
leaves acceptorCallback and no read is issued. -/
theorem acceptorCallback_timeout_nonpositive (env : Env P) (c : HttpConnection P)
    (_hzero : c.request_timeout_ ≤ 0)
    (hopen : env.acceptorIsOpen c.trace = true)
    (huser : env.raises c.trace (Event.acceptorUserCallback 0) = none) :
    (env.raises (c.trace ++ [Event.acceptorUserCallback 0])
        (Event.timerSetup BoundCallback.requestTimeoutCallback c.request_timeout_
          TimerMode.ONE_SHOT) = none →
      ∃ tail, (tail = [] ∨ tail = [Event.poolStop]) ∧
        (acceptorCallback env 0 c).1.trace =
          c.trace ++ [Event.acceptorUserCallback 0,
            Event.timerSetup BoundCallback.requestTimeoutCallback c.request_timeout_
              TimerMode.ONE_SHOT,
            Event.socketAsyncReceive c.buf_.length BoundCallback.socketReadCallback] ++ tail) ∧
    (∀ e, env.raises (c.trace ++ [Event.acceptorUserCallback 0])
        (Event.timerSetup BoundCallback.requestTimeoutCallback c.request_timeout_
          TimerMode.ONE_SHOT) = some e →
      acceptorCallback env 0 c =
        ({ c with
            trace := c.trace ++ [Event.acceptorUserCallback 0,
              Event.timerSetup BoundCallback.requestTimeoutCallback c.request_timeout_
                TimerMode.ONE_SHOT] }, some e)) := by
  constructor
  · intro hsetup
    rw [acceptorCallback_success env c hopen huser, hsetup]
    simp only []
    obtain ⟨_, _, tail, htail, htrace⟩ := doRead_calls env
      { c with
        trace := c.trace ++ [Event.acceptorUserCallback 0,
          Event.timerSetup BoundCallback.requestTimeoutCallback c.request_timeout_
            TimerMode.ONE_SHOT]
        timerArmed := true }
    refine ⟨tail, htail, ?_⟩
    rw [htrace]
    simp
  · intro e hsetup
    rw [acceptorCallback_success env c hopen huser, hsetup]

/-- Witness of C13 amended: the sample connection with request timeout 0. -/
theorem acceptorCallback_timeout_nonpositive_witness :
    (sampleConnWith 0).request_timeout_ ≤ 0 ∧
    ∃ tail, (tail = [] ∨ tail = [Event.poolStop]) ∧
      (acceptorCallback sampleEnv 0 (sampleConnWith 0)).1.trace =
        [Event.acceptorUserCallback 0,
          Event.timerSetup BoundCallback.requestTimeoutCallback 0 TimerMode.ONE_SHOT,
          Event.socketAsyncReceive 96 BoundCallback.socketReadCallback] ++ tail :=
  ⟨by decide,
    (acceptorCallback_timeout_nonpositive sampleEnv (sampleConnWith 0) (by decide) rfl rfl).1
      rfl⟩

end isc.http

/-! # Option configuration: CfgOption::get -/

namespace isc.dhcp

theorem equal_range_mem (index1 : OptionContainer → List OptionDescriptor)
    (hperm : ∀ c, (index1 c).Perm c) (options : OptionContainer) (option_code : Nat)
    (d : OptionDescriptor) :
    d ∈ equal_range index1 options option_code ↔ d ∈ options ∧ typeKey d = some option_code := by
  unfold equal_range
  rw [List.mem_filter, (hperm options).mem_iff]
  simp

theorem CfgOption_get_cases {K : Type} (getAll : K → Option OptionContainer)
    (index1 : OptionContainer → List OptionDescriptor)
    (hperm : ∀ c, (index1 c).Perm c) (key : K) (option_code : Nat) :
    (CfgOption.get getAll index1 key option_code = OptionDescriptor.ofPersist false ∧
      ∀ d ∈ storedUnder getAll key, typeKey d ≠ some option_code) ∨
    (CfgOption.get getAll index1 key option_code ∈ storedUnder getAll key ∧
      typeKey (CfgOption.get getAll index1 key option_code) = some option_code) := by
  unfold CfgOption.get storedUnder
  cases hg : getAll key with
  | none =>
    left
    exact ⟨rfl, fun d hd => by simp at hd⟩
  | some options =>
    simp only [Option.getD_some]
    by_cases hempty : options.isEmpty = true
    · left
      simp only [hempty, if_true]
      refine ⟨trivial, fun d hd => ?_⟩
      have : options = [] := List.isEmpty_iff.mp hempty
      rw [this] at hd
      cases hd
    · simp only [hempty, Bool.false_eq_true, if_false]
      cases hr : equal_range index1 options option_code with
      | nil =>
        left
        refine ⟨by simp, fun d hd hk => ?_⟩
        have hmem : d ∈ equal_range index1 options option_code :=
          (equal_range_mem index1 hperm options option_code d).mpr ⟨hd, hk⟩
        rw [hr] at hmem
        cases hmem
      | cons first rest =>
        right
        have hmem : first ∈ equal_range index1 options option_code := by
          rw [hr]
          exact List.mem_cons_self _ _
        have h := (equal_range_mem index1 hperm options option_code first).mp hmem
        simpa using h

/-- C16: for every key (an option space name or a vendor id) and option
code, the descriptor CfgOption::get returns holds a NULL option exactly when
no descriptor stored under that key holds an option of that code, and then
its persistent flag is false; otherwise it is one of the descriptors stored
under that key, and the type of its option is the requested code. -/
theorem CfgOption_get_descriptor {K : Type} (getAll : K → Option OptionContainer)
    (index1 : OptionContainer → List OptionDescriptor)
    (hperm : ∀ c, (index1 c).Perm c) (key : K) (option_code : Nat) :
    ((CfgOption.get getAll index1 key option_code).option = none ↔
      ∀ d ∈ storedUnder getAll key, typeKey d ≠ some option_code) ∧
    ((CfgOption.get getAll index1 key option_code).option = none →
      (CfgOption.get getAll index1 key option_code).persistent = false) ∧
    ((CfgOption.get getAll index1 key option_code).option ≠ none →
      CfgOption.get getAll index1 key option_code ∈ storedUnder getAll key ∧
      typeKey (CfgOption.get getAll index1 key option_code) = some option_code) := by
  rcases CfgOption_get_cases getAll index1 hperm key option_code with ⟨h1, h2⟩ | ⟨h1, h2⟩
  · rw [h1]
    exact ⟨⟨fun _ => h2, fun _ => rfl⟩, fun _ => rfl, fun h => absurd rfl h⟩
  · have hsome : (CfgOption.get getAll index1 key option_code).option ≠ none := by
      intro h0
      unfold typeKey at h2
      rw [h0] at h2
      cases h2
    exact ⟨⟨fun h0 => absurd h0 hsome, fun hall => absurd h2 (hall _ h1)⟩,
      fun h0 => absurd h0 hsome, fun _ => ⟨h1, h2⟩⟩

/-- Witness of C16: in the space dhcp4 of the sample configuration, with an
index that holds the descriptors in reverse order, option 6 is found and
option 7 is not. -/
theorem CfgOption_get_descriptor_witness :
    (∀ c : OptionContainer, (List.reverse c).Perm c) ∧
    CfgOption.get sampleGetAll List.reverse (Sum.inl "dhcp4") 6
      ∈ storedUnder sampleGetAll (Sum.inl "dhcp4") ∧
    (CfgOption.get sampleGetAll List.reverse (Sum.inl "dhcp4") 7).persistent = false :=
  ⟨fun c => List.reverse_perm c,
    ((CfgOption_get_descriptor sampleGetAll List.reverse (fun c => List.reverse_perm c)
      (Sum.inl "dhcp4") 6).2.2 (by decide)).1,
    (CfgOption_get_descriptor sampleGetAll List.reverse (fun c => List.reverse_perm c)
      (Sum.inl "dhcp4") 7).2.1 (by decide)⟩

/-! # Server configuration: SrvConfig::equals -/

/-- C18 does not hold of the code: with the logger kea-dhcp4 twice in one
configuration and the loggers kea-dhcp4 and kea-dhcp4.packets in the other,
all else equal, equals is true one way round and false the other. -/
theorem SrvConfig_equals_not_symmetric :
    SrvConfig.equals sampleOps
      (sampleConfig ["kea-dhcp4", "kea-dhcp4"] [] [] false)
      (sampleConfig ["kea-dhcp4", "kea-dhcp4.packets"] [] [] false) = true ∧
    SrvConfig.equals sampleOps
      (sampleConfig ["kea-dhcp4", "kea-dhcp4.packets"] [] [] false)
      (sampleConfig ["kea-dhcp4", "kea-dhcp4"] [] [] false) = false := by
  decide

/-! # Server configuration: SrvConfig::getConfigSummary -/

theorem lastIndexOf_append_pair (ch d : Char) (hd : d ≠ ch) (body : List Char) :
    lastIndexOf ch (body ++ [ch, d]) = some body.length := by
  induction body with
  | nil => simp [lastIndexOf, hd]
  | cons x xs ih =>
    have h : lastIndexOf ch (x :: (xs ++ [ch, d])) = some (xs.length + 1) := by
      simp only [lastIndexOf, ih]
    simpa using h

theorem trimLastSeparator_append (body : List Char) (hlen : body.length + 2 < 2 ^ 64) :
    trimLastSeparator (body ++ [';', ' ']) = body := by
  have hpos : find_last_of (body ++ [';', ' ']) ';' = body.length := by
    unfold find_last_of
    rw [lastIndexOf_append_pair ';' ' ' (by decide) body]
    rfl
  have hmod : ((body ++ [';', ' ']).length + 2 ^ 64 - 2) % 2 ^ 64 = body.length := by
    have h1 : (body ++ [';', ' ']).length = body.length + 2 := by simp
    rw [h1]
    have h2 : body.length + 2 + 2 ^ 64 - 2 = body.length + 2 ^ 64 := by omega
    rw [h2, Nat.add_mod_right]
    exact Nat.mod_eq_of_lt (by omega)
  unfold trimLastSeparator
  simp only [hpos, hmod, if_true]
  simp

theorem join_with_separator (sep : List Char) (segs : List (List Char)) (h : segs ≠ []) :
    (segs.map (fun seg => seg ++ sep)).flatten = List.intercalate sep segs ++ sep := by
  induction segs with
  | nil => exact absurd rfl h
  | cons a rest ih =>
    cases rest with
    | nil => simp [List.intercalate]
    | cons b rest2 =>
      have ih2 := ih (by simp)
      simp only [List.map_cons, List.flatten_cons] at ih2 ⊢
      rw [ih2]
      simp [List.intercalate, List.intersperse]

theorem summaryStream_eq {T : SrvConfigTypes} (ops : SrvConfigOps T) (m : CfgSel)
    (cfg : SrvConfig T) (selection : Nat) :
    summaryStream ops m cfg selection =
      ((summarySegments ops m cfg selection).map (fun seg => seg ++ "; ".toList)).flatten := by
  have hen : "DDNS: ".toList ++ "enabled".toList = "DDNS: enabled".toList := by decide
  have hdis : "DDNS: ".toList ++ "disabled".toList = "DDNS: disabled".toList := by decide
  unfold summaryStream summarySegments
  by_cases h4 : selection &&& m.CFGSEL_SUBNET4 = m.CFGSEL_SUBNET4 <;>
    by_cases h6 : selection &&& m.CFGSEL_SUBNET6 = m.CFGSEL_SUBNET6 <;>
    by_cases hd : selection &&& m.CFGSEL_DDNS = m.CFGSEL_DDNS <;>
    cases hu : ops.getEnableUpdates cfg.d2_client_config_ <;>
    simp [h4, h6, hd, hu, ← hen, ← hdis]

theorem repr_toList_length (n : Nat) (h : n < 2 ^ 64) : (Nat.repr n).toList.length ≤ 20 := by
  have h1 : (Nat.repr n).length ≤ 20 :=
    Nat.repr_length n 20 (by decide) (Nat.lt_of_lt_of_le h (by norm_num))
  exact h1

theorem summaryStream_length {T : SrvConfigTypes} (ops : SrvConfigOps T) (m : CfgSel)
    (cfg : SrvConfig T) (selection : Nat)
    (h4 : cfg.cfg_subnets4_.length < 2 ^ 64) (h6 : cfg.cfg_subnets6_.length < 2 ^ 64) :
    (summaryStream ops m cfg selection).length ≤ 200 := by
  have r4 := repr_toList_length _ h4
  have r6 := repr_toList_length _ h6
  have l1 : "added IPv4 subnets: ".toList.length = 20 := by decide
  have l2 : "no IPv4 subnets!".toList.length = 16 := by decide
  have l3 : "added IPv6 subnets: ".toList.length = 20 := by decide
  have l4 : "no IPv6 subnets!".toList.length = 16 := by decide
  have l5 : "DDNS: ".toList.length = 6 := by decide
  have l6 : "enabled".toList.length = 7 := by decide
  have l7 : "disabled".toList.length = 8 := by decide
  have l8 : "; ".toList.length = 2 := by decide
  unfold summaryStream
  simp only []
  split_ifs <;> simp only [List.length_append, List.length_nil, l1, l2, l3, l4, l5, l6, l7, l8] <;>
    omega

/-- C19: for every selection mask and configuration (the numbers of subnets
being values of size_t), getConfigSummary returns the selected segments, in
the order IPv4 subnets, IPv6 subnets, DDNS, joined by the separator of a
semicolon and a blank with no separator at the end, and it returns the text
no config details available exactly when no segment is selected, which is
when none of CFGSEL_SUBNET4, CFGSEL_SUBNET6 and CFGSEL_DDNS is fully set in
the mask. -/
theorem getConfigSummary_segments {T : SrvConfigTypes} (ops : SrvConfigOps T) (m : CfgSel)
    (cfg : SrvConfig T) (selection : Nat)
    (h4 : cfg.cfg_subnets4_.length < 2 ^ 64) (h6 : cfg.cfg_subnets6_.length < 2 ^ 64) :
    SrvConfig.getConfigSummary ops m cfg selection =
      (if summarySegments ops m cfg selection = [] then "no config details available".toList
        else List.intercalate "; ".toList (summarySegments ops m cfg selection)) ∧
    (summarySegments ops m cfg selection = [] ↔
      selection &&& m.CFGSEL_SUBNET4 ≠ m.CFGSEL_SUBNET4 ∧
      selection &&& m.CFGSEL_SUBNET6 ≠ m.CFGSEL_SUBNET6 ∧
      selection &&& m.CFGSEL_DDNS ≠ m.CFGSEL_DDNS) := by
  constructor
  · unfold SrvConfig.getConfigSummary
    simp only []
    by_cases hs : summarySegments ops m cfg selection = []
    · have hstream : summaryStream ops m cfg selection = [] := by
        rw [summaryStream_eq, hs]
        rfl
      rw [hstream]
      simp only [hs, if_true, List.length_nil, List.nil_append]
      decide
    · have hstream := summaryStream_eq ops m cfg selection
      rw [join_with_separator _ _ hs] at hstream
      have hlen := summaryStream_length ops m cfg selection h4 h6
      have hsep : "; ".toList = [';', ' '] := by decide
      rw [hstream, hsep] at hlen
      rw [hstream, hsep]
      have hne : (List.intercalate [';', ' '] (summarySegments ops m cfg selection)
          ++ [';', ' ']).length ≠ 0 := by simp
      simp only [hne, hs, if_false]
      apply trimLastSeparator_append
      simp only [List.length_append, List.length_cons, List.length_nil] at hlen
      omega
  · unfold summarySegments
    by_cases h4 : selection &&& m.CFGSEL_SUBNET4 = m.CFGSEL_SUBNET4 <;>
      by_cases h6 : selection &&& m.CFGSEL_SUBNET6 = m.CFGSEL_SUBNET6 <;>
      by_cases hd : selection &&& m.CFGSEL_DDNS = m.CFGSEL_DDNS <;>
      simp [h4, h6, hd]

/-- Witness of C19: two IPv4 subnets, no IPv6 subnet and DDNS enabled, with
all three segments selected. -/
theorem getConfigSummary_segments_witness :
    (sampleConfig [] [1, 2] [] true).cfg_subnets4_.length < 2 ^ 64 ∧
    SrvConfig.getConfigSummary sampleOps cfgSel (sampleConfig [] [1, 2] [] true) 0x13 =
      (if summarySegments sampleOps cfgSel (sampleConfig [] [1, 2] [] true) 0x13 = [] then
        "no config details available".toList
      else
        List.intercalate "; ".toList
          (summarySegments sampleOps cfgSel (sampleConfig [] [1, 2] [] true) 0x13)) :=
  ⟨by decide,
    (getConfigSummary_segments sampleOps cfgSel (sampleConfig [] [1, 2] [] true) 0x13
      (by decide) (by decide)).1⟩

end isc.dhcp

/-! # Configuration of the authoritative server: configureAuthServer -/

namespace auth

variable {E S DS : Type}

theorem datasources_member_id (typeText : String) :
    "datasources/" ++ typeText ≠ "datasources" := by
  intro h
  have hl := congrArg String.length h
  rw [String.length_append] at hl
  have h1 : "datasources/".length = 12 := by decide
  have h2 : "datasources".length = 11 := by decide
  omega

theorem createAuthConfigParser_member (typeText : String) (kind : ParserKind)
    (h : createAuthConfigParser ("datasources/" ++ typeText) true = Except.ok kind) :
    kind = ParserKind.MemoryDatasourceConfig := by
  unfold createAuthConfigParser at h
  simp only [datasources_member_id typeText, if_false] at h
  split at h
  · cases h
    rfl
  · cases h

theorem DatasourcesConfig_loop_some (api : Api E S DS)
    (buildChild : ParserKind → E → Option (Except AuthExn (AuthConfigParser DS)))
    (hchild : ∀ e, ∃ r, buildChild ParserKind.MemoryDatasourceConfig e = some r)
    (elems : List E) :
    ∀ (datasources_ : List (AuthConfigParser DS)) (configured_sources_ : List String),
      ∃ r, DatasourcesConfig.loop api buildChild elems datasources_ configured_sources_
        = some r := by
  induction elems with
  | nil =>
    intro ds cs
    exact ⟨_, rfl⟩
  | cons datasrc_elem rest ih =>
    intro ds cs
    unfold DatasourcesConfig.loop
    cases hg : api.get datasrc_elem "type" with
    | error e => exact ⟨_, rfl⟩
    | ok t =>
      cases t with
      | none => exact ⟨_, rfl⟩
      | some datasrc_type =>
        simp only []
        cases hs : api.stringValue datasrc_type with
        | error e => exact ⟨_, rfl⟩
        | ok typeText =>
          simp only []
          by_cases hmem : typeText ∈ cs
          · simp only [hmem, if_true]
            exact ⟨_, rfl⟩
          · simp only [hmem, if_false]
            cases hc : createAuthConfigParser ("datasources/" ++ typeText) true with
            | error e => exact ⟨_, rfl⟩
            | ok kind =>
              simp only []
              have hk := createAuthConfigParser_member typeText kind hc
              subst hk
              obtain ⟨r, hr⟩ := hchild datasrc_elem
              rw [hr]
              cases r with
              | error e => exact ⟨_, rfl⟩
              | ok datasrc_config => exact ih _ _

theorem buildParser_some (api : Api E S DS) (server : S) (fuel : Nat) (hfuel : 2 ≤ fuel)
    (kind : ParserKind) (config_value : E) :
    ∃ r, buildParser api server fuel kind config_value = some r := by
  obtain ⟨k, rfl⟩ : ∃ k, fuel = k + 2 := ⟨fuel - 2, by omega⟩
  cases kind with
  | MemoryDatasourceConfig => exact ⟨_, rfl⟩
  | DatasourcesConfig =>
    unfold buildParser DatasourcesConfig.build
    cases hl : api.listValue config_value with
    | error e => exact ⟨_, rfl⟩
    | ok elems =>
      exact DatasourcesConfig_loop_some api _ (fun e => ⟨_, rfl⟩) elems [] []

theorem buildAll_some (api : Api E S DS) (server : S) (fuel : Nat) (hfuel : 2 ≤ fuel)
    (pairs : List (String × E)) :
    ∀ parsers : List (AuthConfigParser DS),
      ∃ r, buildAll api server fuel pairs parsers = some r := by
  induction pairs with
  | nil =>
    intro parsers
    exact ⟨_, rfl⟩
  | cons config_pair rest ih =>
    intro parsers
    unfold buildAll
    by_cases hdb : config_pair.1 = "database_file"
    · simp only [hdb, if_true]
      exact ih parsers
    · simp only [hdb, if_false]
      cases hc : createAuthConfigParser config_pair.1 false with
      | error e => exact ⟨_, rfl⟩
      | ok kind =>
        simp only []
        obtain ⟨r, hr⟩ := buildParser_some api server fuel hfuel kind config_pair.2
        rw [hr]
        cases r with
        | error e => exact ⟨_, rfl⟩
        | ok parser => exact ih _

theorem tryBlock_some (api : Api E S DS) (server : S) (fuel : Nat) (hfuel : 2 ≤ fuel)
    (config_set : E) :
    ∃ r, tryBlock api server fuel config_set = some r := by
  unfold tryBlock
  cases hm : api.mapValue config_set with
  | error e => exact ⟨_, rfl⟩
  | ok pairs => exact buildAll_some api server fuel hfuel pairs []

mutual
theorem commit_commits (api : Api E S DS) :
    ∀ (parser : AuthConfigParser DS) (w : World S DS),
      (AuthConfigParser.commit api parser w).commits = w.commits ++ commitOrder parser
  | AuthConfigParser.DatasourcesConfig datasources_ configured_sources_, w => by
    rw [AuthConfigParser.commit, commitOrder, commitList_commits api datasources_]
    simp
  | AuthConfigParser.MemoryDatasourceConfig rrclass_ memory_datasrc_, w => by
    rw [AuthConfigParser.commit, commitOrder]
theorem commitList_commits (api : Api E S DS) :
    ∀ (parsers : List (AuthConfigParser DS)) (w : World S DS),
      (commitList api parsers w).commits = w.commits ++ commitOrderList parsers
  | [], w => by
    rw [commitList, commitOrderList]
    simp
  | parser :: rest, w => by
    rw [commitList, commitOrderList, commitList_commits api rest, commit_commits api parser]
    simp
end

/-- The failures named in C17, each on a sample configuration: an unknown
configuration identifier, a data source without type, a data source type
given twice, a zone without origin, a zone without file and a zone given
twice all end in an AuthConfigError with the server and the record of the
commit() calls as they were. -/
theorem configureAuthServer_sample_failures :
    configureAuthServer sampleApi 2 sampleWorld
        (some (Json.map [("statistics", Json.list [])]))
      = some (Except.error (AuthExn.AuthConfigError "Unknown configuration variable: statistics"),
          sampleWorld) ∧
    configureAuthServer sampleApi 2 sampleWorld
        (some (Json.map [("datasources", Json.list [Json.map []])]))
      = some (Except.error (AuthExn.AuthConfigError "Missing data source type"), sampleWorld) ∧
    configureAuthServer sampleApi 2 sampleWorld
        (some (Json.map [("datasources", Json.list
          [Json.map [("type", Json.str "memory")], Json.map [("type", Json.str "memory")]])]))
      = some (Except.error (AuthExn.AuthConfigError
          ("Data source type " ++ apostrophe ++ "memory" ++ apostrophe ++
            " already configured")), sampleWorld) ∧
    configureAuthServer sampleApi 2 sampleWorld
        (some (Json.map [("datasources", Json.list
          [Json.map [("type", Json.str "memory"), ("zones", Json.list [Json.map []])]])]))
      = some (Except.error (AuthExn.AuthConfigError "Missing zone origin"), sampleWorld) ∧
    configureAuthServer sampleApi 2 sampleWorld
        (some (sampleConfigSet [("example.com", some "example.com.zone"), ("example.org", none)]))
      = some (Except.error (AuthExn.AuthConfigError "Missing zone file for zone: example.org"),
          sampleWorld) ∧
    configureAuthServer sampleApi 2 sampleWorld
        (some (sampleConfigSet
          [("example.com", some "example.com.zone"), ("example.com", some "other.zone")]))
      = some (Except.error (AuthExn.AuthConfigError "zone example.com already exists"),
          sampleWorld) :=
  ⟨rfl, rfl, rfl, rfl, rfl, rfl⟩

/-- C17: for every non-null configuration, configureAuthServer returns
(with fuel for the two levels of parsers); when the creation of a parser or
the build of an element fails, it fails, with an AuthConfigError unless the
exception is not an isc::Exception at all, and commit() has been called on
no parser: the server and the record of the commit() calls are as before;
when every element was built, commit() is called on the parsers, once each
and in the order in which they were built, a DatasourcesConfig passing the
call on to its members in their order. -/
theorem configureAuthServer_atomic (api : Api E S DS) (fuel : Nat) (hfuel : 2 ≤ fuel)
    (w : World S DS) (config_set : E) :
    ∃ outcome, configureAuthServer api fuel w (some config_set) = some outcome ∧
      (∀ e, tryBlock api w.server fuel config_set = some (Except.error e) →
        outcome.2 = w ∧
        ((e = AuthExn.other ∧ outcome.1 = Except.error AuthExn.other) ∨
          ∃ what, outcome.1 = Except.error (AuthExn.AuthConfigError what))) ∧
      (∀ parsers, tryBlock api w.server fuel config_set = some (Except.ok parsers) →
        outcome.1 = Except.ok () ∧
        outcome.2 = commitList api parsers w ∧
        outcome.2.commits = w.commits ++ commitOrderList parsers) ∧
      (∀ e, outcome.1 = Except.error e → outcome.2 = w) := by
  obtain ⟨r, hr⟩ := tryBlock_some api w.server fuel hfuel config_set
  unfold configureAuthServer
  simp only [hr]
  cases r with
  | error e =>
    cases e with
    | AuthConfigError what =>
      refine ⟨_, rfl, ?_, ?_, fun _ _ => rfl⟩
      · intro e he
        exact ⟨rfl, Or.inr ⟨what, rfl⟩⟩
      · intro parsers hp
        cases hp
    | iscException what =>
      refine ⟨_, rfl, ?_, ?_, fun _ _ => rfl⟩
      · intro e he
        exact ⟨rfl, Or.inr ⟨_, rfl⟩⟩
      · intro parsers hp
        cases hp
    | other =>
      refine ⟨_, rfl, ?_, ?_, fun _ _ => rfl⟩
      · intro e he
        cases he
        exact ⟨rfl, Or.inl ⟨rfl, rfl⟩⟩
      · intro parsers hp
        cases hp
  | ok parsers =>
    refine ⟨_, rfl, ?_, ?_, ?_⟩
    · intro e he
      cases he
    · intro parsers2 hp
      cases hp
      exact ⟨rfl, rfl, commitList_commits api parsers w⟩
    · intro e he
      cases he

/-- Witness of C17: the second zone of the sample configuration repeats the
first; the server is as before. -/
theorem configureAuthServer_atomic_witness :
    (2 : Nat) ≤ 2 ∧
    ∃ outcome,
      configureAuthServer sampleApi 2 sampleWorld
        (some (sampleConfigSet
          [("example.com", some "example.com.zone"), ("example.com", some "other.zone")]))
        = some outcome ∧
      ∀ e, outcome.1 = Except.error e → outcome.2 = sampleWorld :=
  ⟨Nat.le_refl 2,
    (configureAuthServer_atomic sampleApi 2 (Nat.le_refl 2) sampleWorld
      (sampleConfigSet
        [("example.com", some "example.com.zone"), ("example.com", some "other.zone")])).imp
      fun _ h => ⟨h.1, h.2.2.2⟩⟩

end auth
